import Mathlib

/-!
# Cache node of ccnSim: slot table, decision policy, two-random eviction

A shallow embedding of `src/src/node/cache/base_cache.cc`,
`src/src/node/cache/two_cache.cc` and `src/include/costprobtail_policy.h`.

Conventions of the embedding.

* `unsigned`, `uint32_t` and `int` are 32 bit wide; a value of an unsigned type
  is a `Nat` kept below `2 ^ 32` by an explicit `% 2 ^ 32`, an `int` is an `Int`
  obtained by the two's complement conversion `int_of_unsigned`.
* A pointer is an `Option`; `none` is `NULL`.  Reading through `NULL` and
  `severe_error` both end the run: the operation returns `Except.error`.
* `#ifdef SEVERE_DEBUG` blocks are guarded by the field `SEVERE_DEBUG` of `Build`.
* Costs, weights and probabilities are `double`s that the code embedded here only
  copies and compares, so their carrier is any linearly ordered field `K` (the
  rationals when a definition is evaluated).  The one `double` operation that
  rounds, the division of `base_cache::finish`, is embedded with its rounding as
  `double_div` (IEEE 754 binary64, round to nearest, ties to even).
* A random draw (`intrand`, `dblrand`) is an argument of the operation that
  would make it: the value the generator returns if the call is reached.
-/

namespace CcnSim

/-! ## Machine integers -/

/-- Number of values of a 32 bit word. -/
def WORD : Nat := 2 ^ 32

/-- Conversion of any natural number to `unsigned`. -/
def to_unsigned (n : Nat) : Nat := n % WORD

/-- Conversion `unsigned` to `int` (two's complement). -/
def int_of_unsigned (u : Nat) : Int :=
  if u % WORD < 2 ^ 31 then ((u % WORD : Nat) : Int) else ((u % WORD : Nat) : Int) - (WORD : Int)

/-- Conversion `int` to `unsigned` (reduction modulo `2 ^ 32`). -/
def unsigned_of_int (i : Int) : Nat := (i % (WORD : Int)).toNat

/-! ## Content identifiers -/

/-- Modelled from the spec: `chunk_t` and the accessors `__id`, `__representation_mask`,
`__srepresentation_mask` are declared in `ccnsim.h`, which is not among the sources.
The spec describes the identifier as the composite key
(object identifier, chunk number, representation mask). -/
structure chunk_t where
  id : Nat
  number : Nat
  representation_mask : Nat
deriving DecidableEq, Repr

/-- Modelled from the spec: `__id(h)`, the object identifier (object rank) of `h`. -/
def __id (h : chunk_t) : Nat := h.id

/-- Modelled from the spec: `__representation_mask(h)`, the representation mask of `h`. -/
def __representation_mask (h : chunk_t) : Nat := h.representation_mask

/-- Modelled from the spec: `__srepresentation_mask(h, m)` overwrites the representation
mask of `h` with `m` and leaves object identifier and chunk number alone. -/
def __srepresentation_mask (h : chunk_t) (m : Nat) : chunk_t :=
  { h with representation_mask := m }

/-- Descriptor of a cached item; the table code reads only its identifier `k`. -/
structure cache_item_descriptor where
  k : chunk_t
deriving DecidableEq, Repr

/-! ## The table `unordered_map<chunk_t, cache_item_descriptor*>` -/

/-- The map `cache`: `none` when the key is absent, `some p` when the key is bound to
the pointer `p` (which may itself be `NULL`). -/
abbrev cache_map := chunk_t → Option (Option cache_item_descriptor)

/-- The map with no key. -/
def cache_map.empty : cache_map := fun _ => none

/-- Member `find` of the map: `none` stands for the past-the-end iterator. -/
def cache_map.find (m : cache_map) (key : chunk_t) : Option (Option cache_item_descriptor) :=
  m key

/-- Member `erase` of the map. -/
def cache_map.erase (m : cache_map) (key : chunk_t) : cache_map :=
  fun x => if x = key then none else m x

/-- Assignment `m[key] = p`. -/
def cache_map.assign (m : cache_map) (key : chunk_t)
    (p : Option cache_item_descriptor) : cache_map :=
  fun x => if x = key then some p else m x

/-! ## Build configuration -/

/-- What the build and the surrounding modules fix: whether `SEVERE_DEBUG` is defined,
the outcome of `ccn_data::check_representation_mask` (defined outside the sources; `true`
when the check passes) and `content_distribution::get_number_of_representations()`. -/
structure Build where
  SEVERE_DEBUG : Bool
  check_representation_mask : chunk_t → Bool
  number_of_representations : Nat

/-! ## `base_cache` -/

/-- The members of `base_cache` the embedded functions read or write.
`occupied_slots` holds the value `get_occupied_slots()` returns. -/
structure base_cache where
  cache_slots : Nat
  occupied_slots : Nat
  cache : cache_map
  hit : Nat
  miss : Nat
  decision_yes : Nat
  decision_no : Nat
  is_initialized : Bool

/-- Accessor `get_slots()` (declared in `base_cache.h`): the capacity `cache_slots`. -/
def base_cache.get_slots (c : base_cache) : Nat := c.cache_slots

/-- Accessor `base_cache::get_occupied_slots`. -/
def base_cache.get_occupied_slots (c : base_cache) : Nat := c.occupied_slots

/-- Function `base_cache::full`. -/
def base_cache.full (c : base_cache) : Bool :=
  c.get_occupied_slots == c.get_slots

/-- Function `base_cache::update_occupied_slots(int increment)`:
`occupied_slots += increment` in 32 bit arithmetic. -/
def base_cache.update_occupied_slots (c : base_cache) (increment : Int) : base_cache :=
  { c with occupied_slots := unsigned_of_int ((c.occupied_slots : Int) + increment) }

/-- Function `base_cache::end_of_cache`, as the value `find` returns for an absent key. -/
def base_cache.end_of_cache : Option (Option cache_item_descriptor) := none

/-- Function `base_cache::find_in_cache`. -/
def base_cache.find_in_cache (b : Build) (c : base_cache)
    (chunk_id_without_representation_mask : chunk_t) :
    Except String (Option (Option cache_item_descriptor)) :=
  if b.SEVERE_DEBUG && __representation_mask chunk_id_without_representation_mask != 0 then
    .error "The identifier of the object you are searching for must be representation-agnostic"
  else
    .ok (c.cache.find chunk_id_without_representation_mask)

/-- The `#ifdef SEVERE_DEBUG` block of `base_cache::insert_into_cache`, entered with the
mask of `chunk_id` already cleared; it does nothing in a build without `SEVERE_DEBUG`. -/
def base_cache.insert_checks (b : Build) (c : base_cache) (chunk_id : chunk_t)
    (descr : Option cache_item_descriptor) : Except String Unit :=
  if !b.SEVERE_DEBUG then .ok ()
  else
    match c.find_in_cache b chunk_id with
    | .error e => .error e
    | .ok it =>
      match it, descr with
      | some (some stored), some d =>
        if __representation_mask stored.k ≥ __representation_mask d.k then
          .error "Representation was already present, and you are trying to insert a lower representation"
        else if b.check_representation_mask d.k then .ok () else .error "check_representation_mask"
      | some none, _ => .error "NULL dereference: it->second->k"
      | _, none => .error "NULL dereference: descr->k"
      | none, some d =>
        if b.check_representation_mask d.k then .ok () else .error "check_representation_mask"

/-- Function `base_cache::insert_into_cache`. -/
def base_cache.insert_into_cache (b : Build) (c : base_cache) (chunk_id : chunk_t)
    (descr : Option cache_item_descriptor) (storage_space : Nat) : Except String base_cache :=
  let chunk_id := __srepresentation_mask chunk_id 0x0000
  match c.insert_checks b chunk_id descr with
  | .error e => .error e
  | .ok _ =>
    let c1 := c.update_occupied_slots (int_of_unsigned (to_unsigned storage_space))
    .ok { c1 with cache := c1.cache.assign chunk_id descr }

/-- Function `base_cache::remove_from_cache`; `-1*storage_space` is an `unsigned` product. -/
def base_cache.remove_from_cache (c : base_cache) (chunk_id : chunk_t)
    (storage_space : Nat) : base_cache :=
  let chunk_id := __srepresentation_mask chunk_id 0x0000
  let c1 := { c with cache := c.cache.erase chunk_id }
  c1.update_occupied_slots
    (int_of_unsigned (to_unsigned ((WORD - 1) * to_unsigned storage_space)))

/-- Function `base_cache::data_lookup`: the stored pointer, `NULL` when the key is absent. -/
def base_cache.data_lookup (b : Build) (c : base_cache) (chunk : chunk_t) :
    Except String (Option cache_item_descriptor) :=
  let chunk := __srepresentation_mask chunk 0x0000
  match c.find_in_cache b chunk with
  | .error e => .error e
  | .ok it =>
    match it with
    | some descr => .ok descr
    | none => .ok none

/-- Function `base_cache::lookup_name`: `data_lookup` tested as a condition. -/
def base_cache.lookup_name (b : Build) (c : base_cache) (chunk : chunk_t) :
    Except String Bool :=
  match c.data_lookup b chunk with
  | .error e => .error e
  | .ok p => .ok p.isSome

/-- A cache with capacity `slots`, an empty table and every counter at zero. -/
def base_cache.fresh (slots : Nat) : base_cache :=
  { cache_slots := slots, occupied_slots := 0, cache := cache_map.empty,
    hit := 0, miss := 0, decision_yes := 0, decision_no := 0, is_initialized := true }

/-! ## Sequences of table calls -/

/-- One call on the slot table. -/
inductive table_call where
  | insert (chunk_id : chunk_t) (descr : Option cache_item_descriptor) (storage_space : Nat)
  | remove (chunk_id : chunk_t) (storage_space : Nat)

/-- Storage space argument of a call. -/
def table_call.storage_space : table_call → Nat
  | .insert _ _ s => s
  | .remove _ s => s

/-- Effect of one call. -/
def base_cache.apply_call (b : Build) (c : base_cache) : table_call → Except String base_cache
  | .insert chunk_id descr s => c.insert_into_cache b chunk_id descr s
  | .remove chunk_id s => .ok (c.remove_from_cache chunk_id s)

/-- Effect of a sequence of calls, left to right; the first error ends the run. -/
def base_cache.apply_calls (b : Build) (c : base_cache) : List table_call → Except String base_cache
  | [] => .ok c
  | call :: rest =>
    match c.apply_call b call with
    | .error e => .error e
    | .ok c1 => c1.apply_calls b rest

/-- The caller's accounting: started with `occupied` slots in use, every insertion of the
sequence fits below the capacity `slots` and every removal gives back no more than is in use. -/
def accounted (slots : Nat) : Nat → List table_call → Prop
  | _, [] => True
  | occupied, .insert _ _ s :: rest => occupied + s ≤ slots ∧ accounted slots (occupied + s) rest
  | occupied, .remove _ s :: rest => s ≤ occupied ∧ accounted slots (occupied - s) rest

/-- A build without `SEVERE_DEBUG`. -/
def release_build : Build :=
  { SEVERE_DEBUG := false, check_representation_mask := fun _ => true,
    number_of_representations := 1 }

/-- A build with `SEVERE_DEBUG`, in which `check_representation_mask` accepts every
identifier. -/
def debug_build : Build :=
  { SEVERE_DEBUG := true, check_representation_mask := fun _ => true,
    number_of_representations := 1 }

/-! ## Decision on incoming data: `base_cache::data_store`, counters, `finish` -/

/-- Function `base_cache::data_store`.  The decision policy `decisor` stands for
`decisor->data_to_cache`; its state `d` is whatever the policy reads and writes, and it is
consulted only when `cache_slots > 0` (short-circuit `&&`).  Returns whether the data is to
be stored. -/
def base_cache.data_store {δ M : Type} (decisor : δ → M → Except String (Bool × δ))
    (c : base_cache) (d : δ) (data_msg : M) : Except String (Bool × base_cache × δ) :=
  if c.cache_slots > 0 then
    match decisor d data_msg with
    | .error e => .error e
    | .ok (true, d1) =>
      .ok (true, { c with decision_yes := to_unsigned (c.decision_yes + 1) }, d1)
    | .ok (false, d1) =>
      .ok (false, { c with decision_no := to_unsigned (c.decision_no + 1) }, d1)
  else
    .ok (false, { c with decision_no := to_unsigned (c.decision_no + 1) }, d)

/-- Function `base_cache::clear_stat` on the four scalar counters. -/
def base_cache.clear_stat (c : base_cache) : base_cache :=
  { c with hit := 0, miss := 0, decision_yes := 0, decision_no := 0 }

/-- Round to nearest, ties to even, of the quotient `n / b` of two naturals, `b > 0`. -/
def round_half_even (n b : Nat) : Nat :=
  let m0 := n / b
  let r := n % b
  if 2 * r < b then m0
  else if b < 2 * r then m0 + 1
  else if m0 % 2 = 0 then m0 else m0 + 1

/-- The scaling of a `double` quotient `a / b` of positive integers: the `s` for which
`a * 2 ^ s / b` lies in `[2 ^ 52, 2 ^ 53)`, so that the 53 bit significand is that quotient
rounded and the value is the significand over `2 ^ s`. -/
def double_shift (a b : Nat) : Nat :=
  let s0 := 52 + Nat.log2 b - Nat.log2 a
  if b * 2 ^ 52 ≤ a * 2 ^ s0 then s0 else s0 + 1

/-- The significand of the `double` quotient `a / b`: `a * 2 ^ s / b` rounded to nearest,
ties to even (the default rounding of IEEE 754 arithmetic). -/
def double_significand (a b : Nat) : Nat :=
  round_half_even (a * 2 ^ double_shift a b) b

/-- The value of the `double` division `(double)a / b` of two `uint32_t` values, `b ≠ 0`, as
a rational.  Both conversions to `double` are exact (the values are below `2 ^ 53`) and a
quotient of two such values is neither subnormal nor above the largest `double`, so the
result is the exact quotient rounded to a 53 bit significand, nearest and ties to even. -/
def double_div (a b : Nat) : ℚ :=
  if a = 0 then 0 else (double_significand a b : ℚ) / (2 ^ double_shift a b : ℚ)

/-- The scalar `decision_ratio` recorded by `base_cache::finish`:
`(decision_yes + decision_no == 0) ? 0 : (double)decision_yes / (decision_yes + decision_no)`.
The sum is a `uint32_t` sum, the quotient a `double` division. -/
def base_cache.decision_ratio (c : base_cache) : ℚ :=
  if to_unsigned (c.decision_yes + c.decision_no) = 0 then 0
  else double_div c.decision_yes (to_unsigned (c.decision_yes + c.decision_no))

/-- A policy that gives the answers of a list in order; it has no answer left when the list
is used up. -/
def scripted_decisor {M : Type} (answers : List Bool) (_ : M) :
    Except String (Bool × List Bool) :=
  match answers with
  | [] => .error "no answer left"
  | answer :: rest => .ok (answer, rest)

/-- A sequence of `base_cache::data_store` calls, one per message; returns the cache and the
policy state after the last call. -/
def base_cache.data_store_all {δ M : Type} (decisor : δ → M → Except String (Bool × δ))
    (c : base_cache) (d : δ) : List M → Except String (base_cache × δ)
  | [] => .ok (c, d)
  | data_msg :: rest =>
    match c.data_store decisor d data_msg with
    | .error e => .error e
    | .ok (_, c1, d1) => c1.data_store_all decisor d1 rest

/-- The answers the decision policy gives when it is asked about each message of a
sequence in turn. -/
def decisor_answers {δ M : Type} (decisor : δ → M → Except String (Bool × δ))
    (d : δ) : List M → Except String (List Bool × δ)
  | [] => .ok ([], d)
  | data_msg :: rest =>
    match decisor d data_msg with
    | .error e => .error e
    | .ok (answer, d1) =>
      match decisor_answers decisor d1 rest with
      | .error e => .error e
      | .ok (answers, d2) => .ok (answer :: answers, d2)

/-- The policy `Always` (`lce`): stores everything, has no state. -/
def always_decisor {M : Type} (d : Unit) (_ : M) : Except String (Bool × Unit) :=
  .ok (true, d)

/-! ## Messages and the recency store -/

/-- Modelled from the spec: `ccn_data` is declared outside the sources; an incoming unit
exposes a content identifier and a retrieval cost. -/
structure ccn_data (K : Type) where
  chunk : chunk_t
  cost : K

/-- Accessor `getChunk()`. -/
def ccn_data.getChunk {K : Type} (m : ccn_data K) : chunk_t := m.chunk

/-- Accessor `get_chunk_id()`. -/
def ccn_data.get_chunk_id {K : Type} (m : ccn_data K) : chunk_t := m.chunk

/-- Accessor `getCost()`. -/
def ccn_data.getCost {K : Type} (m : ccn_data K) : K := m.cost

/-- Modelled from the spec: `lru_pos` is declared in `lru_cache.h`, not among the sources;
a recency position carries the identifier `k` and a `cost` field. -/
structure lru_pos (K : Type) where
  k : chunk_t
  cost : K

/-- Modelled from the spec: `lru_cache` is declared in `lru_cache.h`, not among the
sources.  It is a `base_cache` that keeps its entries ordered by recency; here the most
recently used entry is the head of `lru_list` and the least recently used one its last
element. -/
structure lru_cache (K : Type) extends base_cache where
  lru_list : List (lru_pos K)

/-- Modelled from the spec: `get_lru()`, the least recently used entry, `NULL` when there is
none. -/
def lru_cache.get_lru {K : Type} (c : lru_cache K) : Option (lru_pos K) := c.lru_list.getLast?

/-- Modelled from the spec: `get_mru()`, the most recently used entry, `NULL` when there is
none. -/
def lru_cache.get_mru {K : Type} (c : lru_cache K) : Option (lru_pos K) := c.lru_list.head?

/-- Modelled from the spec: `lru_cache::data_store` is not among the sources.  The caller's
insertion places a new entry for `elem` at the most recently used position, displacing the
least recently used entry when the store is full; `stale_cost` is whatever the cost field
of the new position holds before the policy annotates it. -/
def lru_cache.insert_mru {K : Type} (c : lru_cache K) (elem : chunk_t) (stale_cost : K) :
    lru_cache K :=
  { c with lru_list :=
      { k := elem, cost := stale_cost } ::
        (if c.full then c.lru_list.dropLast else c.lru_list) }

/-! ## `Costprobtail` -/

/-- The members of `Costprobtail`: `xi` (set by the base class `Costprob`), `alpha`, and the
slot `last_accepted_content_cost` of `DecisionPolicy`.  The pointer `mycache` is passed to
each method as an argument. -/
structure Costprobtail (K : Type) where
  xi : K
  alpha : K
  last_accepted_content_cost : K

/-- Modelled from the spec: `set_last_accepted_content_cost(data_msg)` is declared in
`decision_policy.h`, not among the sources; it records the cost of the message as the last
accepted cost. -/
def Costprobtail.set_last_accepted_content_cost {K : Type} (p : Costprobtail K)
    (data_msg : ccn_data K) : Costprobtail K :=
  { p with last_accepted_content_cost := data_msg.getCost }

/-- Modelled from the spec: `get_last_accepted_content_cost()`, declared in
`decision_policy.h`. -/
def Costprobtail.get_last_accepted_content_cost {K : Type} (p : Costprobtail K) : K :=
  p.last_accepted_content_cost

/-- The branch of `Costprobtail::data_to_cache` that computes `decision`.
`compute_content_weight` is the pure virtual weight function, `dblrand` the value
`dblrand()` returns if it is called. -/
def Costprobtail.decision {K : Type} [LinearOrder K]
    (compute_content_weight : chunk_t → K → K) (p : Costprobtail K) (mycache : lru_cache K)
    (data_msg : ccn_data K) (dblrand : K) : Except String Bool :=
  if !mycache.full then
    .ok true
  else
    let content_index := data_msg.getChunk
    let cost := data_msg.getCost
    let new_content_weight := compute_content_weight content_index cost
    match mycache.get_lru with
    | none => .error "NULL dereference: lru_element_descriptor->k"
    | some lru_element_descriptor =>
      let content_index := lru_element_descriptor.k
      let cost := lru_element_descriptor.cost
      let lru_weight := compute_content_weight content_index cost
      if new_content_weight > lru_weight then .ok true
      else if dblrand < p.xi then .ok false
      else .ok true

/-- Function `Costprobtail::data_to_cache`: the decision and the policy afterwards. -/
def Costprobtail.data_to_cache {K : Type} [LinearOrder K] (b : Build)
    (compute_content_weight : chunk_t → K → K) (p : Costprobtail K) (mycache : lru_cache K)
    (data_msg : ccn_data K) (dblrand : K) : Except String (Bool × Costprobtail K) :=
  if b.SEVERE_DEBUG && !mycache.is_initialized then
    .error "base_cache is not initialized."
  else
    match p.decision compute_content_weight mycache data_msg dblrand with
    | .error e => .error e
    | .ok true => .ok (true, p.set_last_accepted_content_cost data_msg)
    | .ok false => .ok (false, p)

/-- Function `Costprobtail::after_insertion_action`; `UNSET_COST` is the sentinel constant
(defined outside the sources).  The base hook `DecisionPolicy::after_insertion_action`
(also outside the sources) is taken to do nothing. -/
def Costprobtail.after_insertion_action {K : Type} [LinearOrder K] (b : Build) (UNSET_COST : K)
    (p : Costprobtail K) (mycache : lru_cache K) :
    Except String (Costprobtail K × lru_cache K) :=
  if b.SEVERE_DEBUG && p.get_last_accepted_content_cost == UNSET_COST then
    .error "cost_of_the_last_accepted_element MUST NOT be a negative number"
  else
    match mycache.lru_list with
    | [] => .error "NULL dereference: get_mru()->cost"
    | mru :: older =>
      let mycache1 : lru_cache K :=
        { mycache with
          lru_list := { mru with cost := p.get_last_accepted_content_cost } :: older }
      let p1 : Costprobtail K :=
        if b.SEVERE_DEBUG then { p with last_accepted_content_cost := UNSET_COST } else p
      .ok (p1, mycache1)

/-! ## `two_cache` -/

/-- The members of `two_cache`: a `base_cache` and the tracked sequence `deq`. -/
structure two_cache extends base_cache where
  deq : List chunk_t

/-- Modelled from the spec: `get_size()` is declared in `base_cache.h`, not among the
sources; the sequence is compared with the capacity. -/
def base_cache.get_size (c : base_cache) : Nat := c.cache_slots

/-- The choice of the victim in `two_cache::data_store`: the identifier to erase and its
position, from the two sampled positions, their entries and the value `coin` of
`intrand(2)`. -/
def two_cache.choose (pos1 pos2 : Nat) (toErase1 toErase2 : chunk_t) (coin : Nat) :
    chunk_t × Nat :=
  let name1 := __id toErase1
  let name2 := __id toErase2
  if name1 > name2 then (toErase2, pos2)
  else if name1 == name2 then
    if coin == 0 then (toErase1, pos1) else (toErase2, pos2)
  else (toErase1, pos1)

/-- Function `two_cache::data_store`.  `pos1`, `pos2` and `coin` are the values the three
`intrand` calls return if they are reached; `deq.at` out of range ends the run. -/
def two_cache.data_store {δ K : Type} (b : Build)
    (decisor : δ → ccn_data K → Except String (Bool × δ))
    (c : two_cache) (d : δ) (data_msg : ccn_data K) (pos1 pos2 coin : Nat) :
    Except String (Bool × two_cache × δ) :=
  match c.tobase_cache.data_store decisor d data_msg with
  | .error e => .error e
  | .ok (return_value, c1, d1) =>
    let chunk := data_msg.get_chunk_id
    if b.SEVERE_DEBUG && b.number_of_representations != 1 then
      .error "This cache policy is intended to work only with one representation for each chunk."
    else
      let storage := 1
      match c1.insert_into_cache b chunk none storage with
      | .error e => .error e
      | .ok c2 =>
        if c.deq.length == to_unsigned c.get_size then
          match c.deq[pos1]?, c.deq[pos2]? with
          | some toErase1, some toErase2 =>
            let victim := two_cache.choose pos1 pos2 toErase1 toErase2 coin
            .ok (return_value,
                 { tobase_cache := c2.remove_from_cache victim.1 storage,
                   deq := c.deq.set victim.2 chunk }, d1)
          | _, _ => .error "std::out_of_range: deq.at"
        else
          .ok (return_value, { tobase_cache := c2, deq := c.deq ++ [chunk] }, d1)

/-- The ten entries with object ranks `1, 2, ..., 10`, chunk number and mask zero. -/
def ten_entries : List chunk_t :=
  (List.range 10).map fun i => { id := i + 1, number := 0, representation_mask := 0 }

/-- A table that binds exactly the mask-cleared identifiers of `l`, each to `NULL`. -/
def table_of (l : List chunk_t) : cache_map :=
  fun x => if x ∈ l.map (fun h => __srepresentation_mask h 0x0000) then some none else none

/-- A full `two_cache` of capacity ten tracking `ten_entries`. -/
def ten_cache : two_cache :=
  { tobase_cache := { base_cache.fresh 10 with occupied_slots := 10, cache := table_of ten_entries },
    deq := ten_entries }

/-! ## Counter accessors, interest handling, name storage -/

/-- Function `base_cache::get_decision_yes`. -/
def base_cache.get_decision_yes (c : base_cache) : Nat := c.decision_yes

/-- Function `base_cache::get_decision_no`. -/
def base_cache.get_decision_no (c : base_cache) : Nat := c.decision_no

/-- Function `base_cache::set_decision_yes(uint32_t n)`. -/
def base_cache.set_decision_yes (c : base_cache) (n : Nat) : base_cache :=
  { c with decision_yes := to_unsigned n }

/-- Function `base_cache::set_decision_no(uint32_t n)`. -/
def base_cache.set_decision_no (c : base_cache) (n : Nat) : base_cache :=
  { c with decision_no := to_unsigned n }

/-- Function `base_cache::data_lookup_receiving_interest`. -/
def base_cache.data_lookup_receiving_interest (b : Build) (c : base_cache)
    (interest_chunk_id : chunk_t) : Except String (Option cache_item_descriptor) :=
  c.data_lookup b interest_chunk_id

/-- Function `base_cache::handle_interest` on the scalar counters: `hit++` when the lookup
returns a descriptor, `miss++` otherwise.  The per-file array `cache_stats` is not among
the embedded members. -/
def base_cache.handle_interest (b : Build) (c : base_cache) (chunk : chunk_t) :
    Except String (Option cache_item_descriptor × base_cache) :=
  match c.data_lookup_receiving_interest b chunk with
  | .error e => .error e
  | .ok old =>
    if old.isSome then .ok (old, { c with hit := to_unsigned (c.hit + 1) })
    else .ok (old, { c with miss := to_unsigned (c.miss + 1) })

/-- Function `base_cache::store_name`.  The message `fake_data` carries `elem` and the cost
`default_cost` a new `ccn_data` has; the call `data_store(fake_data)` is taken at
`base_cache::data_store`. -/
def base_cache.store_name {δ K : Type} (decisor : δ → ccn_data K → Except String (Bool × δ))
    (default_cost : K) (c : base_cache) (d : δ) (elem : chunk_t) :
    Except String (base_cache × δ) :=
  if c.cache_slots == 0 then
    .error " ALLERT! The size of the name cache is set to 0! Please check."
  else
    match c.data_store decisor d ({ chunk := elem, cost := default_cost } : ccn_data K) with
    | .error e => .error e
    | .ok (_, c1, d1) => .ok (c1, d1)

/-- The operations of the cache node that C13 names. -/
inductive node_call (K : Type) where
  | data_store (data_msg : ccn_data K)
  | store_name (elem : chunk_t)
  | handle_interest (chunk : chunk_t)
  | insert_into_cache (chunk_id : chunk_t) (descr : Option cache_item_descriptor)
      (storage_space : Nat)
  | remove_from_cache (chunk_id : chunk_t) (storage_space : Nat)
  | set_decision_yes (n : Nat)
  | set_decision_no (n : Nat)
  | clear_stat

/-- Whether the call is one of the two setters or the explicit clear. -/
def node_call.overwrites {K : Type} : node_call K → Bool
  | .set_decision_yes _ => true
  | .set_decision_no _ => true
  | .clear_stat => true
  | _ => false

/-- Effect of one operation of the node on the cache and on the state of the policy. -/
def base_cache.call {δ K : Type} (b : Build)
    (decisor : δ → ccn_data K → Except String (Bool × δ)) (default_cost : K)
    (c : base_cache) (d : δ) : node_call K → Except String (base_cache × δ)
  | .data_store data_msg =>
    match c.data_store decisor d data_msg with
    | .error e => .error e
    | .ok (_, c1, d1) => .ok (c1, d1)
  | .store_name elem => c.store_name decisor default_cost d elem
  | .handle_interest chunk =>
    match c.handle_interest b chunk with
    | .error e => .error e
    | .ok (_, c1) => .ok (c1, d)
  | .insert_into_cache chunk_id descr s =>
    match c.insert_into_cache b chunk_id descr s with
    | .error e => .error e
    | .ok c1 => .ok (c1, d)
  | .remove_from_cache chunk_id s => .ok (c.remove_from_cache chunk_id s, d)
  | .set_decision_yes n => .ok (c.set_decision_yes n, d)
  | .set_decision_no n => .ok (c.set_decision_no n, d)
  | .clear_stat => .ok (c.clear_stat, d)

/-! ## `Costprobtail`: construction, and the decision as a step on policy and store -/

/-- Constructor `Costprobtail::Costprobtail`.  `xi` is the member the base constructor
`Costprob(average_decision_ratio_)` has set (`costprob_policy.h` is not among the
sources), `get_alpha` the value of `content_distribution_module->get_alpha()`,
`initial_cost` the content of the last-accepted-cost slot after the base constructors, and
`mycache` the result of `dynamic_cast<lru_cache*>(mycache_par)`, `NULL` when the cache is
not an `lru_cache`. -/
def Costprobtail.constructor {K : Type} [LinearOrderedField K] (b : Build) (xi : K)
    (get_alpha : K) (initial_cost : K) (mycache : Option (lru_cache K)) :
    Except String (Costprobtail K) :=
  if xi > 1 ∨ xi < 0 then
    .error "xi is not valid"
  else if b.SEVERE_DEBUG && mycache.isNone then
    .error "Costprobatailperf works only with lru"
  else
    .ok { xi := xi, alpha := get_alpha, last_accepted_content_cost := initial_cost }

/-- What a call of `Costprobtail::data_to_cache` can reach: the policy object and, through
the pointer `mycache`, the attached store. -/
structure Costprobtail_state (K : Type) where
  policy : Costprobtail K
  mycache : lru_cache K

/-- Function `base_cache::is_initialized` (lines 498 to 501) as a call on the store:
the value returned and the store after the call. -/
def lru_cache.call_is_initialized {K : Type} (c : lru_cache K) : Bool × lru_cache K :=
  (c.is_initialized, c)

/-- Function `base_cache::get_occupied_slots` (lines 262 to 265) as a call on the store. -/
def lru_cache.call_get_occupied_slots {K : Type} (c : lru_cache K) : Nat × lru_cache K :=
  (c.occupied_slots, c)

/-- Modelled from the spec: `get_slots()` is declared in `base_cache.h`, not among the
sources; as a call on the store it reports the capacity. -/
def lru_cache.call_get_slots {K : Type} (c : lru_cache K) : Nat × lru_cache K :=
  (c.cache_slots, c)

/-- Function `base_cache::full` (lines 252 to 255) as a call on the store: the two
accessors are called in turn and their values compared. -/
def lru_cache.call_full {K : Type} (c : lru_cache K) : Bool × lru_cache K :=
  let occupied := c.call_get_occupied_slots
  let slots := occupied.2.call_get_slots
  (occupied.1 == slots.1, slots.2)

/-- Modelled from the spec: `get_lru()` is declared in `lru_cache.h`, not among the
sources; the recency store exposes its least recently used entry through an accessor. -/
def lru_cache.call_get_lru {K : Type} (c : lru_cache K) : Option (lru_pos K) × lru_cache K :=
  (c.get_lru, c)

/-- `Costprobtail::data_to_cache` (lines 64 to 112) statement by statement, as a program on
the policy object and the store behind `mycache`: every call made through `mycache` and
every call of the virtual `compute_content_weight` takes the current state and hands on the
state it leaves.  `compute_content_weight` is a method of the policy, so it is given the
whole state; `dblrand` is the value `dblrand()` returns if it is called. -/
def Costprobtail.data_to_cache_step {K : Type} [LinearOrder K] (b : Build)
    (compute_content_weight :
      chunk_t → K → Costprobtail_state K → K × Costprobtail_state K)
    (s : Costprobtail_state K) (data_msg : ccn_data K) (dblrand : K) :
    Except String (Bool × Costprobtail_state K) :=
  let checked : Except String (Costprobtail_state K) :=
    if b.SEVERE_DEBUG then
      let initialized := s.mycache.call_is_initialized
      if !initialized.1 then .error "base_cache is not initialized."
      else .ok { s with mycache := initialized.2 }
    else .ok s
  match checked with
  | .error e => .error e
  | .ok s0 =>
    let full := s0.mycache.call_full
    let s1 : Costprobtail_state K := { s0 with mycache := full.2 }
    if !full.1 then
      .ok (true, { s1 with policy := s1.policy.set_last_accepted_content_cost data_msg })
    else
      let content_index := data_msg.getChunk
      let cost := data_msg.getCost
      let new_content_weight := compute_content_weight content_index cost s1
      let s2 := new_content_weight.2
      let lru_element_descriptor := s2.mycache.call_get_lru
      let s3 : Costprobtail_state K := { s2 with mycache := lru_element_descriptor.2 }
      match lru_element_descriptor.1 with
      | none => .error "NULL dereference: lru_element_descriptor->k"
      | some lru =>
        let content_index := lru.k
        let cost := lru.cost
        let lru_weight := compute_content_weight content_index cost s3
        let s4 := lru_weight.2
        if new_content_weight.1 > lru_weight.1 then
          .ok (true, { s4 with policy := s4.policy.set_last_accepted_content_cost data_msg })
        else if dblrand < s4.policy.xi then
          .ok (false, s4)
        else
          .ok (true, { s4 with policy := s4.policy.set_last_accepted_content_cost data_msg })

/-- A weight function that reads nothing but its arguments, as a method call that leaves
the state alone. -/
def pure_weight {K : Type} (w : chunk_t → K → K) (chunk : chunk_t) (cost : K)
    (s : Costprobtail_state K) : K × Costprobtail_state K :=
  (w chunk cost, s)

/-! ## `base_cache::initialize` -/

/-- The policy objects `base_cache::initialize` constructs, each with the argument its
constructor receives.  The constructors are defined outside the sources. -/
inductive decision_policy_object (K : Type) where
  | LCD
  | Fix (target_acceptance_ratio : K)
  | Ideal_blind
  | Ideal_costaware (target_acceptance_ratio : K)
  | Costaware (target_acceptance_ratio : K)
  | Two_Lru (name_cache_size : Nat)
  | Betweenness (db : K)
  | prob_cache (cache_slots : Nat)
  | Never
  | Always
deriving DecidableEq

/-- The parameters `base_cache::initialize` reads: `par("DS")`, `par("C")`, `par("NC")`,
the ancestor parameter `betweenness`, and whether the module type is
`modules.node.cache.lru_cache`. -/
structure module_par (K : Type) where
  DS : String
  C : Nat
  NC : Nat
  betweenness : K
  module_is_lru_cache : Bool

/-- The test `s.find(pat) == 0` of `std::string`: `pat` occurs at position 0. -/
def find_at_zero (s pat : String) : Bool := pat.data.isPrefixOf s.data

/-- Member `substr(pos)` of `std::string`, for `pos` not beyond the length. -/
def substr (s : String) (pos : Nat) : String := ⟨s.data.drop pos⟩

/-- Function `strlen` applied to `s.c_str()`: the characters before the first NUL. -/
def strlen (s : String) : Nat := (s.data.takeWhile fun ch => ch != '\x00').length

/-- The selection of the decision policy in `base_cache::initialize` (lines 60 to 124):
the object constructed, with the text and the value of the acceptance ratio where the
branch sets them (the empty text and 0 stand for variables the branch leaves alone; they
are read only after the `fix` and the `costaware` branch).  `atof` is the C library
function. -/
def select_decisor {K : Type} [LinearOrderedField K] (atof : String → K) (par : module_par K)
    (cache_slots : Nat) : Except String (decision_policy_object K × String × K) :=
  let decision_policy := par.DS
  if decision_policy == "lcd" then .ok (.LCD, "", 0)
  else if find_at_zero decision_policy "fix" then
    let target_acceptance_ratio_string := substr decision_policy 3
    let target_acceptance_ratio := atof target_acceptance_ratio_string
    .ok (.Fix target_acceptance_ratio, target_acceptance_ratio_string, target_acceptance_ratio)
  else if find_at_zero decision_policy "ideal_blind" then .ok (.Ideal_blind, "", 0)
  else if find_at_zero decision_policy "ideal_costaware" then .ok (.Ideal_costaware 0, "", 0)
  else if find_at_zero decision_policy "costaware" then
    let target_acceptance_ratio_string := substr decision_policy "costaware".length
    let target_acceptance_ratio := atof target_acceptance_ratio_string
    if !par.module_is_lru_cache then
      .error "Cost-aware policies have been tested only with LRU replacement policy"
    else
      .ok (.Costaware target_acceptance_ratio, target_acceptance_ratio_string,
        target_acceptance_ratio)
  else if decision_policy == "two_lru" then .ok (.Two_Lru par.NC, "", 0)
  else if find_at_zero decision_policy "btw" then
    if |par.betweenness - 1| ≤ 1 / 1000 then .error "Node betwenness not defined."
    else .ok (.Betweenness par.betweenness, "", 0)
  else if find_at_zero decision_policy "prob_cache" then .ok (.prob_cache cache_slots, "", 0)
  else if find_at_zero decision_policy "never" then .ok (.Never, "", 0)
  else if decision_policy == "lce" then .ok (.Always, "", 0)
  else .error "Decision policy incorrect"

/-- Function `base_cache::initialize`: the cache and the decision policy it leaves, or the
error it stops with. -/
def base_cache.initialize {K : Type} [LinearOrderedField K] (b : Build) (atof : String → K)
    (par : module_par K) : Except String (base_cache × decision_policy_object K) :=
  if b.number_of_representations > 1 then
    .error "A generic cache cannot handle more than one representation per object."
  else
    let cache_slots := par.C
    match select_decisor atof par cache_slots with
    | .error e => .error e
    | .ok (decisor, target_acceptance_ratio_string, target_acceptance_ratio) =>
      let decision_policy := par.DS
      if (find_at_zero decision_policy "fix" ||
            (find_at_zero decision_policy "costaware" &&
              !find_at_zero decision_policy "ideal_costaware")) &&
          strlen target_acceptance_ratio_string == 0 then
        .error "You forgot to insert a valid value of acceptance rate when specifying the decision policy."
      else if (find_at_zero decision_policy "fix" ||
            (find_at_zero decision_policy "costaware" &&
              !find_at_zero decision_policy "ideal_costaware")) &&
          decide (target_acceptance_ratio < 0) then
        .error "target_acceptance_ratio is not valid."
      else
        .ok ({ cache_slots := cache_slots, occupied_slots := 0, cache := cache_map.empty,
               hit := 0, miss := 0, decision_yes := 0, decision_no := 0,
               is_initialized := true }, decisor)

/-- A stand-in for `atof` on texts that begin with no number: the C library performs no
conversion there and returns 0. -/
def atof_without_number (K : Type) [LinearOrderedField K] (_ : String) : K := 0

/-! ## Sequences of `two_cache::data_store` calls -/

/-- One call of `two_cache::data_store`: the message and the values of the three draws. -/
structure two_cache_call (K : Type) where
  data_msg : ccn_data K
  pos1 : Nat
  pos2 : Nat
  coin : Nat

/-- A `two_cache` of capacity `slots` with an empty sequence and an empty table. -/
def two_cache.fresh (slots : Nat) : two_cache :=
  { tobase_cache := base_cache.fresh slots, deq := [] }

/-- A sequence of `two_cache::data_store` calls; the first error ends the run. -/
def two_cache.data_store_all {δ K : Type} (b : Build)
    (decisor : δ → ccn_data K → Except String (Bool × δ)) (c : two_cache) (d : δ) :
    List (two_cache_call K) → Except String (two_cache × δ)
  | [] => .ok (c, d)
  | call :: rest =>
    match c.data_store b decisor d call.data_msg call.pos1 call.pos2 call.coin with
    | .error e => .error e
    | .ok (_, c1, d1) => c1.data_store_all b decisor d1 rest

/-- The policy `Never`: stores nothing, has no state. -/
def never_decisor {M : Type} (d : Unit) (_ : M) : Except String (Bool × Unit) :=
  .ok (false, d)

/-- `Costprobtail::data_to_cache` as the `decisor` of `base_cache::data_store`: the policy
object is the state, `mycache` and the value `dblrand` of the draw are fixed. -/
def Costprobtail.as_decisor {K : Type} [LinearOrder K] (b : Build)
    (compute_content_weight : chunk_t → K → K) (mycache : lru_cache K) (dblrand : K)
    (p : Costprobtail K) (data_msg : ccn_data K) : Except String (Bool × Costprobtail K) :=
  p.data_to_cache b compute_content_weight mycache data_msg dblrand

/-! ## Sample objects -/

/-- A weight function: popularity `1 / (rank + 1)` times cost. -/
def sample_weight {K : Type} [LinearOrderedField K] (h : chunk_t) (cost : K) : K :=
  cost / ((h.id : K) + 1)

/-- A policy with `xi = 1/2` and nothing accepted so far (slot at `-1`). -/
def sample_policy (K : Type) [LinearOrderedField K] : Costprobtail K :=
  { xi := 1 / 2, alpha := 1, last_accepted_content_cost := -1 }

/-- A recency store of capacity 2 holding one entry. -/
def sample_store_with_room (K : Type) [LinearOrderedField K] : lru_cache K :=
  { tobase_cache := { base_cache.fresh 2 with occupied_slots := 1 },
    lru_list := [{ k := ⟨1, 0, 0⟩, cost := 4 }] }

/-- A full recency store of capacity 2; the least recently used entry has rank 1, cost 4. -/
def sample_full_store (K : Type) [LinearOrderedField K] : lru_cache K :=
  { tobase_cache := { base_cache.fresh 2 with occupied_slots := 2 },
    lru_list := [{ k := ⟨2, 0, 0⟩, cost := 3 }, { k := ⟨1, 0, 0⟩, cost := 4 }] }

/-- An incoming unit of rank 0 and cost 5: weight 5, above the weight 2 of the least
recently used entry of `sample_full_store`. -/
def heavy_unit (K : Type) [LinearOrderedField K] : ccn_data K :=
  { chunk := ⟨0, 0, 0⟩, cost := 5 }

/-- An incoming unit of rank 3 and cost 4: weight 1, below the weight 2 of the least
recently used entry of `sample_full_store`. -/
def light_unit (K : Type) [LinearOrderedField K] : ccn_data K :=
  { chunk := ⟨3, 0, 0⟩, cost := 4 }

/-- A weight function with a side effect: it reports `sample_weight` and drops the most
recently used entry of the recency list of the store it reaches through the policy. -/
def dropping_weight {K : Type} [LinearOrderedField K] (chunk : chunk_t) (cost : K)
    (s : Costprobtail_state K) : K × Costprobtail_state K :=
  (sample_weight chunk cost,
    { s with mycache := { s.mycache with lru_list := s.mycache.lru_list.tail } })

/-! # Theorems -/

/-! ## Arithmetic of `occupied_slots` -/

theorem update_occupied_slots_add (c : base_cache) (s : Nat) :
    (c.update_occupied_slots (int_of_unsigned (to_unsigned s))).occupied_slots
      = (c.occupied_slots + s) % WORD := by
  simp only [base_cache.update_occupied_slots, unsigned_of_int, int_of_unsigned, to_unsigned, WORD]
  split <;> omega

theorem update_occupied_slots_sub (c : base_cache) (s : Nat) :
    (c.update_occupied_slots
        (int_of_unsigned (to_unsigned ((WORD - 1) * to_unsigned s)))).occupied_slots
      = (c.occupied_slots + (WORD - s % WORD)) % WORD := by
  simp only [base_cache.update_occupied_slots, unsigned_of_int, int_of_unsigned, to_unsigned, WORD]
  split <;> omega

theorem insert_into_cache_occupied (b : Build) (c c1 : base_cache) (chunk_id : chunk_t)
    (descr : Option cache_item_descriptor) (s : Nat)
    (h : c.insert_into_cache b chunk_id descr s = .ok c1) :
    c1.occupied_slots = (c.occupied_slots + s) % WORD ∧ c1.cache_slots = c.cache_slots ∧
      c1.cache = c.cache.assign (__srepresentation_mask chunk_id 0) descr := by
  unfold base_cache.insert_into_cache at h
  cases hck : c.insert_checks b (__srepresentation_mask chunk_id 0) descr with
  | error e => simp [hck] at h
  | ok u =>
    simp only [hck, Except.ok.injEq] at h
    subst h
    exact ⟨update_occupied_slots_add c s, rfl, rfl⟩

theorem insert_into_cache_release (b : Build) (hb : b.SEVERE_DEBUG = false) (c : base_cache)
    (chunk_id : chunk_t) (descr : Option cache_item_descriptor) (s : Nat) :
    c.insert_into_cache b chunk_id descr s =
      .ok { c.update_occupied_slots (int_of_unsigned (to_unsigned s)) with
            cache := c.cache.assign (__srepresentation_mask chunk_id 0) descr } := by
  simp [base_cache.insert_into_cache, base_cache.insert_checks, hb,
    base_cache.update_occupied_slots]

theorem remove_from_cache_occupied (c : base_cache) (chunk_id : chunk_t) (s : Nat) :
    (c.remove_from_cache chunk_id s).occupied_slots
        = (c.occupied_slots + (WORD - s % WORD)) % WORD ∧
      (c.remove_from_cache chunk_id s).cache_slots = c.cache_slots ∧
      (c.remove_from_cache chunk_id s).cache
        = c.cache.erase (__srepresentation_mask chunk_id 0) := by
  refine ⟨?_, rfl, rfl⟩
  exact update_occupied_slots_sub { c with cache := c.cache.erase _ } s

theorem apply_calls_release_ok (b : Build) (hb : b.SEVERE_DEBUG = false)
    (calls : List table_call) :
    ∀ c : base_cache, ∃ c1, c.apply_calls b calls = .ok c1 := by
  induction calls with
  | nil => intro c; exact ⟨c, rfl⟩
  | cons call rest ih =>
    intro c
    cases call with
    | insert chunk_id descr s =>
      simp only [base_cache.apply_calls, base_cache.apply_call,
        insert_into_cache_release b hb]
      exact ih _
    | remove chunk_id s =>
      simp only [base_cache.apply_calls, base_cache.apply_call]
      exact ih _

theorem accounted_calls_bound (b : Build) (slots : Nat) (calls : List table_call) :
    ∀ (c : base_cache) (o : Nat), c.occupied_slots = o % WORD → o ≤ slots →
      accounted slots o calls →
      ∀ (n : Nat) (c1 : base_cache), c.apply_calls b (calls.take n) = .ok c1 →
        c1.occupied_slots ≤ slots ∧ c1.cache_slots = c.cache_slots := by
  induction calls with
  | nil =>
    intro c o ho hle _ n c1 h
    simp only [List.take_nil, base_cache.apply_calls, Except.ok.injEq] at h
    subst h
    exact ⟨by rw [ho]; exact le_trans (Nat.mod_le _ _) hle, rfl⟩
  | cons call rest ih =>
    intro c o ho hle hacc n c1 h
    cases n with
    | zero =>
      simp only [List.take_zero, base_cache.apply_calls, Except.ok.injEq] at h
      subst h
      exact ⟨by rw [ho]; exact le_trans (Nat.mod_le _ _) hle, rfl⟩
    | succ n =>
      simp only [List.take_succ_cons, base_cache.apply_calls] at h
      cases call with
      | insert chunk_id descr s =>
        simp only [base_cache.apply_call] at h
        cases hins : c.insert_into_cache b chunk_id descr s with
        | error e => rw [hins] at h; cases h
        | ok c2 =>
          rw [hins] at h
          obtain ⟨h1, h2, _⟩ := insert_into_cache_occupied b c c2 chunk_id descr s hins
          obtain ⟨hfit, hrest⟩ := hacc
          have := ih c2 (o + s) (by rw [h1, ho, Nat.mod_add_mod]) hfit hrest n c1 h
          exact ⟨this.1, this.2.trans h2⟩
      | remove chunk_id s =>
        simp only [base_cache.apply_call] at h
        obtain ⟨h1, h2, _⟩ := remove_from_cache_occupied c chunk_id s
        obtain ⟨hfit, hrest⟩ := hacc
        have hmod : (c.remove_from_cache chunk_id s).occupied_slots = (o - s) % WORD := by
          rw [h1, ho]
          simp only [WORD]
          omega
        have := ih _ (o - s) hmod (le_trans (Nat.sub_le _ _) hle) hrest n c1 h
        exact ⟨this.1, this.2.trans h2⟩

/-! ## C1: the capacity invariant -/

/-- C1, counterexample: on an empty table of capacity 1, two insertions of one slot each
leave `occupied_slots = 2`, above the capacity: `insert_into_cache` adds the storage space
without looking at `cache_slots`. -/
theorem capacity_invariant_counterexample :
    (((base_cache.fresh 1).apply_calls release_build
        [table_call.insert ⟨1, 0, 0⟩ (some ⟨⟨1, 0, 1⟩⟩) 1,
         table_call.insert ⟨2, 0, 0⟩ (some ⟨⟨2, 0, 1⟩⟩) 1]).toOption.map
      fun c => (c.occupied_slots, c.cache_slots, decide (c.occupied_slots ≤ c.cache_slots)))
      = some (2, 1, false) := by
  decide

/-- C1, amended: for every capacity and every finite sequence of `insert_into_cache` and
`remove_from_cache` calls on a table that starts empty, if every insertion is called with
room for its storage space and every removal gives back no more than is occupied
(`accounted`), then `0 ≤ occupied_slots ≤ capacity` holds after each call of the sequence;
and in a build without `SEVERE_DEBUG` the whole sequence runs without error. -/
theorem capacity_invariant_of_accounted_calls (b : Build) (slots : Nat)
    (calls : List table_call) (h : accounted slots 0 calls) :
    (∀ (n : Nat) (c : base_cache),
        (base_cache.fresh slots).apply_calls b (calls.take n) = .ok c →
          0 ≤ c.occupied_slots ∧ c.occupied_slots ≤ c.cache_slots ∧ c.cache_slots = slots) ∧
    (∃ c, (base_cache.fresh slots).apply_calls release_build calls = .ok c) := by
  refine ⟨?_, apply_calls_release_ok release_build rfl calls _⟩
  intro n c hc
  have := accounted_calls_bound b slots calls (base_cache.fresh slots) 0 rfl (Nat.zero_le _) h n c hc
  have hs : c.cache_slots = slots := this.2
  exact ⟨Nat.zero_le _, by rw [hs]; exact this.1, hs⟩

/-- C1, witness: capacity 2, two insertions of one slot and one removal. -/
theorem capacity_invariant_of_accounted_calls_witness :
    accounted 2 0
        [table_call.insert ⟨1, 0, 0⟩ none 1, table_call.insert ⟨2, 0, 0⟩ none 1,
         table_call.remove ⟨1, 0, 0⟩ 1] ∧
      ((∀ (n : Nat) (c : base_cache),
        (base_cache.fresh 2).apply_calls debug_build
          (([table_call.insert ⟨1, 0, 0⟩ none 1, table_call.insert ⟨2, 0, 0⟩ none 1,
             table_call.remove ⟨1, 0, 0⟩ 1] : List table_call).take n) = .ok c →
          0 ≤ c.occupied_slots ∧ c.occupied_slots ≤ c.cache_slots ∧ c.cache_slots = 2) ∧
      (∃ c, (base_cache.fresh 2).apply_calls release_build
          [table_call.insert ⟨1, 0, 0⟩ none 1, table_call.insert ⟨2, 0, 0⟩ none 1,
           table_call.remove ⟨1, 0, 0⟩ 1] = .ok c)) :=
  ⟨by simp [accounted], capacity_invariant_of_accounted_calls _ _ _ (by simp [accounted])⟩

/-! ## C2: which of the two sampled entries `two_cache::data_store` evicts -/

theorem two_cache_data_store_full_inv {δ K : Type} (b : Build)
    (decisor : δ → ccn_data K → Except String (Bool × δ)) (c c1 : two_cache) (d d1 : δ)
    (data_msg : ccn_data K) (pos1 pos2 coin : Nat) (e1 e2 : chunk_t) (rv : Bool)
    (hfull : c.deq.length = to_unsigned c.get_size)
    (h1 : c.deq[pos1]? = some e1) (h2 : c.deq[pos2]? = some e2)
    (h : c.data_store b decisor d data_msg pos1 pos2 coin = .ok (rv, c1, d1)) :
    ∃ c2 c3 : base_cache,
      c.tobase_cache.data_store decisor d data_msg = .ok (rv, c2, d1) ∧
      c2.insert_into_cache b data_msg.get_chunk_id none 1 = .ok c3 ∧
      c1 = { tobase_cache := c3.remove_from_cache (two_cache.choose pos1 pos2 e1 e2 coin).1 1,
             deq := c.deq.set (two_cache.choose pos1 pos2 e1 e2 coin).2 data_msg.get_chunk_id } := by
  unfold two_cache.data_store at h
  cases hds : c.tobase_cache.data_store decisor d data_msg with
  | error e => simp [hds] at h
  | ok r =>
    obtain ⟨rv0, c2, d2⟩ := r
    simp only [hds] at h
    split at h
    · cases h
    · cases hins : c2.insert_into_cache b data_msg.get_chunk_id none 1 with
      | error e => simp [hins] at h
      | ok c3 =>
        simp only [hins, hfull, beq_self_eq_true, if_true, h1, h2, Except.ok.injEq,
          Prod.mk.injEq] at h
        obtain ⟨hrv, hc, hd⟩ := h
        subst hrv hd
        exact ⟨c2, c3, rfl, hins, hc.symm⟩

theorem two_cache_data_store_release {δ K : Type} (b : Build) (hb : b.SEVERE_DEBUG = false)
    (decisor : δ → ccn_data K → Except String (Bool × δ)) (c : two_cache) (c2 : base_cache)
    (d d1 : δ) (data_msg : ccn_data K) (pos1 pos2 coin : Nat) (e1 e2 : chunk_t) (rv : Bool)
    (hfull : c.deq.length = to_unsigned c.get_size)
    (h1 : c.deq[pos1]? = some e1) (h2 : c.deq[pos2]? = some e2)
    (hds : c.tobase_cache.data_store decisor d data_msg = .ok (rv, c2, d1)) :
    ∃ c1, c.data_store b decisor d data_msg pos1 pos2 coin = .ok (rv, c1, d1) := by
  unfold two_cache.data_store
  simp [hds, hb, insert_into_cache_release b hb, hfull, h1, h2]

/-- C2, counterexample: the ten entries with ranks `1..10`, sampled positions `(2, 7)`
(ranks 3 and 8).  After `two_cache::data_store` of a new identifier of rank 11, position 2
holds the new identifier and the table entry of rank 3 is gone, while the entry of rank 8,
the higher of the two, is still at position 7 and still in the table. -/
theorem two_random_eviction_counterexample :
    ((ten_cache.data_store release_build always_decisor ()
        ({ chunk := ⟨11, 0, 0⟩, cost := 0 } : ccn_data ℚ) 2 7 0).toOption.map
      fun r => (ten_cache.deq[2]?, ten_cache.deq[7]?, r.2.1.deq[2]?, r.2.1.deq[7]?,
        r.2.1.cache ⟨3, 0, 0⟩, r.2.1.cache ⟨8, 0, 0⟩))
      = some (some ⟨3, 0, 0⟩, some ⟨8, 0, 0⟩, some ⟨11, 0, 0⟩, some ⟨8, 0, 0⟩,
          none, some none) := by
  rfl

/-- C2, amended: for every full tracked sequence and every pair of sampled positions
`pos1`, `pos2` whose entries `e1`, `e2` have different object ranks, a completed
`two_cache::data_store` has evicted the entry with the LOWER object rank of the two: the
new identifier stands at its position, its table entry is removed, and the entry with the
higher rank is still in the sequence at its position.  In a build without `SEVERE_DEBUG`
the call completes whenever the decision policy answers. -/
theorem two_random_evicts_lower_rank {δ K : Type} (b : Build)
    (decisor : δ → ccn_data K → Except String (Bool × δ)) (c : two_cache) (d : δ)
    (data_msg : ccn_data K) (pos1 pos2 coin : Nat) (e1 e2 : chunk_t)
    (hfull : c.deq.length = to_unsigned c.get_size)
    (h1 : c.deq[pos1]? = some e1) (h2 : c.deq[pos2]? = some e2)
    (hne : __id e1 ≠ __id e2) :
    (∀ (rv : Bool) (c1 : two_cache) (d1 : δ),
      c.data_store b decisor d data_msg pos1 pos2 coin = .ok (rv, c1, d1) →
        (__id e1 < __id e2 →
          c1.deq = c.deq.set pos1 data_msg.get_chunk_id ∧
          c1.cache.find (__srepresentation_mask e1 0) = none ∧
          c1.deq[pos2]? = some e2) ∧
        (__id e2 < __id e1 →
          c1.deq = c.deq.set pos2 data_msg.get_chunk_id ∧
          c1.cache.find (__srepresentation_mask e2 0) = none ∧
          c1.deq[pos1]? = some e1)) ∧
    (b.SEVERE_DEBUG = false →
      ∀ (rv : Bool) (c2 : base_cache) (d1 : δ),
        c.tobase_cache.data_store decisor d data_msg = .ok (rv, c2, d1) →
        ∃ c1, c.data_store b decisor d data_msg pos1 pos2 coin = .ok (rv, c1, d1)) := by
  have hpos : pos1 ≠ pos2 := by
    intro hp
    subst hp
    rw [h1] at h2
    cases h2
    exact hne rfl
  refine ⟨?_, fun hb rv c2 d1 hds =>
    two_cache_data_store_release b hb decisor c c2 d d1 data_msg pos1 pos2 coin e1 e2 rv
      hfull h1 h2 hds⟩
  intro rv c1 d1 h
  obtain ⟨c2, c3, _, _, hc1⟩ :=
    two_cache_data_store_full_inv b decisor c c1 d d1 data_msg pos1 pos2 coin e1 e2 rv
      hfull h1 h2 h
  subst hc1
  constructor
  · intro hlt
    have hch : two_cache.choose pos1 pos2 e1 e2 coin = (e1, pos1) := by
      simp only [two_cache.choose]
      rw [if_neg (by omega), if_neg (by simpa using hne)]
    rw [hch]
    refine ⟨rfl, ?_, ?_⟩
    · simp [(remove_from_cache_occupied c3 e1 1).2.2, cache_map.find, cache_map.erase]
    · rw [List.getElem?_set_ne hpos]; exact h2
  · intro hlt
    have hch : two_cache.choose pos1 pos2 e1 e2 coin = (e2, pos2) := by
      simp only [two_cache.choose]
      rw [if_pos hlt]
    rw [hch]
    refine ⟨rfl, ?_, ?_⟩
    · simp [(remove_from_cache_occupied c3 e2 1).2.2, cache_map.find, cache_map.erase]
    · rw [List.getElem?_set_ne (Ne.symm hpos)]; exact h1

/-- C2, witness: the ten entries, positions `(2, 7)`, a build without `SEVERE_DEBUG`. -/
theorem two_random_evicts_lower_rank_witness :
    ten_cache.deq.length = to_unsigned ten_cache.get_size ∧
    ten_cache.deq[2]? = some ⟨3, 0, 0⟩ ∧ ten_cache.deq[7]? = some ⟨8, 0, 0⟩ ∧
    __id ⟨3, 0, 0⟩ ≠ __id ⟨8, 0, 0⟩ ∧
    ((∀ (rv : Bool) (c1 : two_cache) (d1 : Unit),
      ten_cache.data_store release_build always_decisor ()
          ({ chunk := ⟨11, 0, 0⟩, cost := 0 } : ccn_data ℚ) 2 7 0 = .ok (rv, c1, d1) →
        (__id ⟨3, 0, 0⟩ < __id ⟨8, 0, 0⟩ →
          c1.deq = ten_cache.deq.set 2 ⟨11, 0, 0⟩ ∧
          c1.cache.find (__srepresentation_mask ⟨3, 0, 0⟩ 0) = none ∧
          c1.deq[7]? = some ⟨8, 0, 0⟩) ∧
        (__id ⟨8, 0, 0⟩ < __id ⟨3, 0, 0⟩ →
          c1.deq = ten_cache.deq.set 7 ⟨11, 0, 0⟩ ∧
          c1.cache.find (__srepresentation_mask ⟨8, 0, 0⟩ 0) = none ∧
          c1.deq[2]? = some ⟨3, 0, 0⟩)) ∧
    (release_build.SEVERE_DEBUG = false →
      ∀ (rv : Bool) (c2 : base_cache) (d1 : Unit),
        ten_cache.tobase_cache.data_store always_decisor ()
          ({ chunk := ⟨11, 0, 0⟩, cost := 0 } : ccn_data ℚ) = .ok (rv, c2, d1) →
        ∃ c1, ten_cache.data_store release_build always_decisor ()
          ({ chunk := ⟨11, 0, 0⟩, cost := 0 } : ccn_data ℚ) 2 7 0 = .ok (rv, c1, d1))) :=
  ⟨by decide, by decide, by decide, by decide,
    two_random_evicts_lower_rank release_build always_decisor ten_cache ()
      { chunk := ⟨11, 0, 0⟩, cost := 0 } 2 7 0 ⟨3, 0, 0⟩ ⟨8, 0, 0⟩
      (by decide) (by decide) (by decide) (by decide)⟩

/-! ## C3 to C7: `Costprobtail` -/

theorem data_to_cache_of_decision {K : Type} [LinearOrder K] (b : Build)
    (w : chunk_t → K → K) (p : Costprobtail K) (mycache : lru_cache K)
    (data_msg : ccn_data K) (r : K)
    (hinit : b.SEVERE_DEBUG = true → mycache.is_initialized = true) :
    p.data_to_cache b w mycache data_msg r =
      match p.decision w mycache data_msg r with
      | .error e => .error e
      | .ok true => .ok (true, p.set_last_accepted_content_cost data_msg)
      | .ok false => .ok (false, p) := by
  unfold Costprobtail.data_to_cache
  cases hb : b.SEVERE_DEBUG with
  | false => simp
  | true => simp [hinit hb]

theorem data_to_cache_full_le {K : Type} [LinearOrder K] (b : Build)
    (w : chunk_t → K → K) (p : Costprobtail K) (mycache : lru_cache K)
    (data_msg : ccn_data K) (lru : lru_pos K) (r : K)
    (hinit : b.SEVERE_DEBUG = true → mycache.is_initialized = true)
    (hfull : mycache.full = true) (hlru : mycache.get_lru = some lru)
    (hle : w data_msg.getChunk data_msg.getCost ≤ w lru.k lru.cost) :
    p.data_to_cache b w mycache data_msg r =
      if r < p.xi then .ok (false, p)
      else .ok (true, p.set_last_accepted_content_cost data_msg) := by
  rw [data_to_cache_of_decision b w p mycache data_msg r hinit]
  simp only [Costprobtail.decision, hfull, hlru, Bool.not_true, Bool.false_eq_true, if_false,
    gt_iff_lt, not_lt.mpr hle]
  by_cases hr : r < p.xi
  · simp [hr]
  · simp [hr]

/-- C3: whenever `occupied_slots < capacity`, `Costprobtail::data_to_cache` returns true
(and records the cost of the unit), for every incoming unit, weight function, `xi` (a
member of the policy `p`) and draw `r`.  The store is an initialized one: in a
`SEVERE_DEBUG` build the flag set by `base_cache::initialize` is on. -/
theorem data_to_cache_true_when_not_full {K : Type} [LinearOrder K] (b : Build)
    (w : chunk_t → K → K) (p : Costprobtail K) (mycache : lru_cache K)
    (data_msg : ccn_data K) (r : K)
    (hinit : b.SEVERE_DEBUG = true → mycache.is_initialized = true)
    (hroom : mycache.occupied_slots < mycache.cache_slots) :
    p.data_to_cache b w mycache data_msg r
      = .ok (true, p.set_last_accepted_content_cost data_msg) := by
  rw [data_to_cache_of_decision b w p mycache data_msg r hinit]
  have hnf : mycache.full = false := by
    simp only [base_cache.full, base_cache.get_occupied_slots, base_cache.get_slots,
      beq_eq_false_iff_ne]
    omega
  simp [Costprobtail.decision, hnf]

/-- C3, witness: a store of capacity 2 with one slot occupied, `SEVERE_DEBUG` build. -/
theorem data_to_cache_true_when_not_full_witness :
    (debug_build.SEVERE_DEBUG = true → (sample_store_with_room ℚ).is_initialized = true) ∧
    (sample_store_with_room ℚ).occupied_slots < (sample_store_with_room ℚ).cache_slots ∧
    (sample_policy ℚ).data_to_cache debug_build sample_weight (sample_store_with_room ℚ)
        (light_unit ℚ) (1 / 4)
      = .ok (true, (sample_policy ℚ).set_last_accepted_content_cost (light_unit ℚ)) :=
  ⟨fun _ => rfl, by decide,
    data_to_cache_true_when_not_full debug_build sample_weight (sample_policy ℚ)
      (sample_store_with_room ℚ) (light_unit ℚ) (1 / 4) (fun _ => rfl) (by decide)⟩

/-- C4: on a full store, if the weight of the incoming unit is strictly greater than the
weight of the least recently used entry `lru`, `Costprobtail::data_to_cache` returns true
for every `xi` and every draw `r`. -/
theorem data_to_cache_true_when_heavier {K : Type} [LinearOrder K] (b : Build)
    (w : chunk_t → K → K) (p : Costprobtail K) (mycache : lru_cache K)
    (data_msg : ccn_data K) (lru : lru_pos K) (r : K)
    (hinit : b.SEVERE_DEBUG = true → mycache.is_initialized = true)
    (hfull : mycache.full = true) (hlru : mycache.get_lru = some lru)
    (hgt : w data_msg.getChunk data_msg.getCost > w lru.k lru.cost) :
    p.data_to_cache b w mycache data_msg r
      = .ok (true, p.set_last_accepted_content_cost data_msg) := by
  rw [data_to_cache_of_decision b w p mycache data_msg r hinit]
  simp [Costprobtail.decision, hfull, hlru, hgt]

/-- C4, witness: the unit of weight 5 against the least recently used entry of weight 2,
with a draw `0` that would reject and `xi = 1/2`. -/
theorem data_to_cache_true_when_heavier_witness :
    (debug_build.SEVERE_DEBUG = true → (sample_full_store ℚ).is_initialized = true) ∧
    (sample_full_store ℚ).full = true ∧
    (sample_full_store ℚ).get_lru = some { k := ⟨1, 0, 0⟩, cost := 4 } ∧
    sample_weight (heavy_unit ℚ).getChunk (heavy_unit ℚ).getCost
      > sample_weight (⟨1, 0, 0⟩ : chunk_t) (4 : ℚ) ∧
    (sample_policy ℚ).data_to_cache debug_build sample_weight (sample_full_store ℚ)
        (heavy_unit ℚ) 0
      = .ok (true, (sample_policy ℚ).set_last_accepted_content_cost (heavy_unit ℚ)) :=
  ⟨fun _ => rfl, by decide, rfl,
    by norm_num [sample_weight, heavy_unit, ccn_data.getChunk, ccn_data.getCost],
    data_to_cache_true_when_heavier debug_build sample_weight (sample_policy ℚ)
      (sample_full_store ℚ) (heavy_unit ℚ) { k := ⟨1, 0, 0⟩, cost := 4 } 0 (fun _ => rfl)
      (by decide) rfl
      (by norm_num [sample_weight, heavy_unit, ccn_data.getChunk, ccn_data.getCost])⟩

/-- C5: on a full store with `w_new ≤ w_lru`, for `xi` in `[0,1]` (only `0 ≤ xi` is used)
and every draw `r` in `[0,1)`, `Costprobtail::data_to_cache` rejects exactly when `r < xi`; the set of draws on
which it returns true is exactly `[xi, 1)`, of length (Lebesgue measure) `1 - xi`.  Draws
range over the reals here. -/
theorem renewal_draws (b : Build) (w : chunk_t → ℝ → ℝ) (p : Costprobtail ℝ)
    (mycache : lru_cache ℝ) (data_msg : ccn_data ℝ) (lru : lru_pos ℝ)
    (hinit : b.SEVERE_DEBUG = true → mycache.is_initialized = true)
    (hfull : mycache.full = true) (hlru : mycache.get_lru = some lru)
    (hle : w data_msg.getChunk data_msg.getCost ≤ w lru.k lru.cost)
    (hxi0 : 0 ≤ p.xi) :
    (∀ r : ℝ, 0 ≤ r → r < 1 →
      ∃ (decision : Bool) (p1 : Costprobtail ℝ),
        p.data_to_cache b w mycache data_msg r = .ok (decision, p1) ∧
        (decision = false ↔ r < p.xi)) ∧
    {r : ℝ | 0 ≤ r ∧ r < 1 ∧ ∃ p1, p.data_to_cache b w mycache data_msg r = .ok (true, p1)}
      = Set.Ico p.xi 1 ∧
    MeasureTheory.volume
      {r : ℝ | 0 ≤ r ∧ r < 1 ∧ ∃ p1, p.data_to_cache b w mycache data_msg r = .ok (true, p1)}
      = ENNReal.ofReal (1 - p.xi) := by
  have hcomp := fun r => data_to_cache_full_le b w p mycache data_msg lru r hinit hfull hlru hle
  have hset : {r : ℝ | 0 ≤ r ∧ r < 1 ∧
      ∃ p1, p.data_to_cache b w mycache data_msg r = .ok (true, p1)} = Set.Ico p.xi 1 := by
    ext r
    simp only [Set.mem_setOf_eq, Set.mem_Ico, hcomp r]
    by_cases hr : r < p.xi
    · simp only [hr, if_true, Except.ok.injEq, Prod.mk.injEq, Bool.false_eq_true, false_and,
        exists_false, and_false, false_iff, not_and, not_lt]
      intro h
      exact absurd hr (not_lt.mpr h)
    · simp only [hr, if_false, Except.ok.injEq, Prod.mk.injEq, true_and, exists_eq', and_true]
      constructor
      · intro h; exact ⟨not_lt.mp hr, h.2⟩
      · intro h; exact ⟨le_trans hxi0 h.1, h.2⟩
  refine ⟨?_, hset, ?_⟩
  · intro r _ _
    rw [hcomp r]
    by_cases hr : r < p.xi
    · exact ⟨false, p, by simp [hr], by simp [hr]⟩
    · exact ⟨true, p.set_last_accepted_content_cost data_msg, by simp [hr], by simp [hr]⟩
  · rw [hset, Real.volume_Ico]

/-- C5, witness: the unit of weight 1 against the least recently used entry of weight 2,
`xi = 1/2`. -/
theorem renewal_draws_witness :
    (debug_build.SEVERE_DEBUG = true → (sample_full_store ℝ).is_initialized = true) ∧
    (sample_full_store ℝ).full = true ∧
    (sample_full_store ℝ).get_lru = some { k := ⟨1, 0, 0⟩, cost := 4 } ∧
    sample_weight (light_unit ℝ).getChunk (light_unit ℝ).getCost
      ≤ sample_weight (⟨1, 0, 0⟩ : chunk_t) (4 : ℝ) ∧
    0 ≤ (sample_policy ℝ).xi ∧
    ((∀ r : ℝ, 0 ≤ r → r < 1 →
      ∃ (decision : Bool) (p1 : Costprobtail ℝ),
        (sample_policy ℝ).data_to_cache debug_build sample_weight (sample_full_store ℝ)
          (light_unit ℝ) r = .ok (decision, p1) ∧
        (decision = false ↔ r < (sample_policy ℝ).xi)) ∧
    {r : ℝ | 0 ≤ r ∧ r < 1 ∧ ∃ p1,
        (sample_policy ℝ).data_to_cache debug_build sample_weight (sample_full_store ℝ)
          (light_unit ℝ) r = .ok (true, p1)}
      = Set.Ico (sample_policy ℝ).xi 1 ∧
    MeasureTheory.volume
      {r : ℝ | 0 ≤ r ∧ r < 1 ∧ ∃ p1,
        (sample_policy ℝ).data_to_cache debug_build sample_weight (sample_full_store ℝ)
          (light_unit ℝ) r = .ok (true, p1)}
      = ENNReal.ofReal (1 - (sample_policy ℝ).xi)) :=
  ⟨fun _ => rfl, by decide, rfl,
    by norm_num [sample_weight, light_unit, ccn_data.getChunk, ccn_data.getCost],
    by norm_num [sample_policy],
    renewal_draws debug_build sample_weight (sample_policy ℝ) (sample_full_store ℝ)
      (light_unit ℝ) { k := ⟨1, 0, 0⟩, cost := 4 } (fun _ => rfl) (by decide) rfl
      (by norm_num [sample_weight, light_unit, ccn_data.getChunk, ccn_data.getCost])
      (by norm_num [sample_policy])⟩

/-- C6: on a full store with `w_new ≤ w_lru` and a draw `r` in `[0,1)`:
with `xi = 0` `Costprobtail::data_to_cache` always returns true, with `xi = 1` it always
returns false. -/
theorem boundary_xi {K : Type} [LinearOrderedField K] (b : Build)
    (w : chunk_t → K → K) (p : Costprobtail K) (mycache : lru_cache K)
    (data_msg : ccn_data K) (lru : lru_pos K) (r : K)
    (hinit : b.SEVERE_DEBUG = true → mycache.is_initialized = true)
    (hfull : mycache.full = true) (hlru : mycache.get_lru = some lru)
    (hle : w data_msg.getChunk data_msg.getCost ≤ w lru.k lru.cost)
    (hr0 : 0 ≤ r) (hr1 : r < 1) :
    (p.xi = 0 → p.data_to_cache b w mycache data_msg r
        = .ok (true, p.set_last_accepted_content_cost data_msg)) ∧
    (p.xi = 1 → p.data_to_cache b w mycache data_msg r = .ok (false, p)) := by
  rw [data_to_cache_full_le b w p mycache data_msg lru r hinit hfull hlru hle]
  constructor
  · intro h0
    rw [h0, if_neg (not_lt.mpr hr0)]
  · intro h1
    rw [h1, if_pos hr1]

/-- C6, witness: draw `1/4`, the unit of weight 1 against the entry of weight 2; the
policy is taken once with `xi = 0` and once with `xi = 1`. -/
theorem boundary_xi_witness :
    (debug_build.SEVERE_DEBUG = true → (sample_full_store ℚ).is_initialized = true) ∧
    (sample_full_store ℚ).full = true ∧
    (sample_full_store ℚ).get_lru = some { k := ⟨1, 0, 0⟩, cost := 4 } ∧
    sample_weight (light_unit ℚ).getChunk (light_unit ℚ).getCost
      ≤ sample_weight (⟨1, 0, 0⟩ : chunk_t) (4 : ℚ) ∧
    (0 : ℚ) ≤ 1 / 4 ∧ (1 / 4 : ℚ) < 1 ∧
    ({ sample_policy ℚ with xi := 0 }.data_to_cache debug_build sample_weight
        (sample_full_store ℚ) (light_unit ℚ) (1 / 4)
      = .ok (true, { sample_policy ℚ with xi := 0 }.set_last_accepted_content_cost
          (light_unit ℚ))) ∧
    ({ sample_policy ℚ with xi := 1 }.data_to_cache debug_build sample_weight
        (sample_full_store ℚ) (light_unit ℚ) (1 / 4)
      = .ok (false, { sample_policy ℚ with xi := 1 })) :=
  ⟨fun _ => rfl, by decide, rfl,
    by norm_num [sample_weight, light_unit, ccn_data.getChunk, ccn_data.getCost],
    by norm_num, by norm_num,
    (boundary_xi debug_build sample_weight { sample_policy ℚ with xi := 0 }
      (sample_full_store ℚ) (light_unit ℚ) { k := ⟨1, 0, 0⟩, cost := 4 } (1 / 4)
      (fun _ => rfl) (by decide) rfl
      (by norm_num [sample_weight, light_unit, ccn_data.getChunk, ccn_data.getCost])
      (by norm_num) (by norm_num)).1 rfl,
    (boundary_xi debug_build sample_weight { sample_policy ℚ with xi := 1 }
      (sample_full_store ℚ) (light_unit ℚ) { k := ⟨1, 0, 0⟩, cost := 4 } (1 / 4)
      (fun _ => rfl) (by decide) rfl
      (by norm_num [sample_weight, light_unit, ccn_data.getChunk, ccn_data.getCost])
      (by norm_num) (by norm_num)).2 rfl⟩

/-- C7: for every unit for which `Costprobtail::data_to_cache` returned true, after the
caller has inserted it at the most recently used position (`insert_mru`, with any value
`stale_cost` in the cost field) and `after_insertion_action` has run, the cost field of the
most recently used entry equals the cost of that unit, whatever the field or the
last-accepted-cost slot of `p` held before.  The unit carries a set cost: in a
`SEVERE_DEBUG` build its cost is not the sentinel `UNSET_COST`. -/
theorem cost_propagation {K : Type} [LinearOrder K] (b : Build) (UNSET_COST : K)
    (w : chunk_t → K → K) (p p1 : Costprobtail K) (mycache : lru_cache K)
    (data_msg : ccn_data K) (r stale_cost : K)
    (hcost : b.SEVERE_DEBUG = true → data_msg.getCost ≠ UNSET_COST)
    (hyes : p.data_to_cache b w mycache data_msg r = .ok (true, p1)) :
    ∃ (p2 : Costprobtail K) (c2 : lru_cache K) (mru : lru_pos K),
      p1.after_insertion_action b UNSET_COST (mycache.insert_mru data_msg.getChunk stale_cost)
        = .ok (p2, c2) ∧
      c2.get_mru = some mru ∧ mru.k = data_msg.getChunk ∧ mru.cost = data_msg.getCost := by
  have hp1 : p1 = p.set_last_accepted_content_cost data_msg := by
    unfold Costprobtail.data_to_cache at hyes
    split at hyes
    · cases hyes
    · split at hyes
      · cases hyes
      · simp only [Except.ok.injEq, Prod.mk.injEq, true_and] at hyes
        exact hyes.symm
      · simp at hyes
  subst hp1
  refine ⟨if b.SEVERE_DEBUG then
        { p.set_last_accepted_content_cost data_msg with
          last_accepted_content_cost := UNSET_COST }
      else p.set_last_accepted_content_cost data_msg,
    { tobase_cache := mycache.tobase_cache,
      lru_list := { k := data_msg.getChunk, cost := data_msg.getCost } ::
        (if mycache.full then mycache.lru_list.dropLast else mycache.lru_list) },
    { k := data_msg.getChunk, cost := data_msg.getCost }, ?_, rfl, rfl, rfl⟩
  cases hb : b.SEVERE_DEBUG with
  | false =>
    simp [Costprobtail.after_insertion_action, hb, lru_cache.insert_mru,
      Costprobtail.get_last_accepted_content_cost,
      Costprobtail.set_last_accepted_content_cost]
  | true =>
    have hne := hcost hb
    simp [Costprobtail.after_insertion_action, hb, lru_cache.insert_mru,
      Costprobtail.get_last_accepted_content_cost,
      Costprobtail.set_last_accepted_content_cost, hne]

/-- C7, witness: the unit of weight 5 is accepted on the full sample store whose slot
held `-1`; the new position is created with cost field `99`, `UNSET_COST = -1`. -/
theorem cost_propagation_witness :
    (debug_build.SEVERE_DEBUG = true → (heavy_unit ℚ).getCost ≠ -1) ∧
    (sample_policy ℚ).data_to_cache debug_build sample_weight (sample_full_store ℚ)
        (heavy_unit ℚ) 0
      = .ok (true, (sample_policy ℚ).set_last_accepted_content_cost (heavy_unit ℚ)) ∧
    ∃ (p2 : Costprobtail ℚ) (c2 : lru_cache ℚ) (mru : lru_pos ℚ),
      ((sample_policy ℚ).set_last_accepted_content_cost (heavy_unit ℚ)).after_insertion_action
          debug_build (-1) ((sample_full_store ℚ).insert_mru (heavy_unit ℚ).getChunk 99)
        = .ok (p2, c2) ∧
      c2.get_mru = some mru ∧ mru.k = (heavy_unit ℚ).getChunk ∧
      mru.cost = (heavy_unit ℚ).getCost :=
  have hyes : (sample_policy ℚ).data_to_cache debug_build sample_weight (sample_full_store ℚ)
        (heavy_unit ℚ) 0
      = .ok (true, (sample_policy ℚ).set_last_accepted_content_cost (heavy_unit ℚ)) := by
    simp [Costprobtail.data_to_cache, Costprobtail.decision, debug_build, sample_full_store,
      base_cache.fresh, base_cache.full, base_cache.get_occupied_slots, base_cache.get_slots,
      lru_cache.get_lru, sample_weight, heavy_unit, ccn_data.getChunk, ccn_data.getCost]
    norm_num
  ⟨fun _ => by norm_num [heavy_unit, ccn_data.getCost], hyes,
    cost_propagation debug_build (-1) sample_weight (sample_policy ℚ) _ (sample_full_store ℚ)
      (heavy_unit ℚ) 0 99 (fun _ => by norm_num [heavy_unit, ccn_data.getCost]) hyes⟩

/-! ## C8: counters of `base_cache::data_store` and the ratio of `finish` -/

theorem data_store_all_counters {δ M : Type}
    (decisor : δ → M → Except String (Bool × δ)) (msgs : List M) :
    ∀ (c : base_cache) (d d1 : δ) (answers : List Bool), c.cache_slots > 0 →
      c.decision_yes < WORD → c.decision_no < WORD →
      decisor_answers decisor d msgs = .ok (answers, d1) →
      ∃ c1, c.data_store_all decisor d msgs = .ok (c1, d1) ∧
        c1.decision_yes = (c.decision_yes + answers.count true) % WORD ∧
        c1.decision_no = (c.decision_no + answers.count false) % WORD := by
  induction msgs with
  | nil =>
    intro c d d1 answers _ hy hn hans
    simp only [decisor_answers, Except.ok.injEq, Prod.mk.injEq] at hans
    obtain ⟨ha, hd⟩ := hans
    subst ha hd
    exact ⟨c, rfl, by simp [Nat.mod_eq_of_lt hy], by simp [Nat.mod_eq_of_lt hn]⟩
  | cons m rest ih =>
    intro c d d1 answers hslots hy hn hans
    simp only [decisor_answers] at hans
    cases hdec : decisor d m with
    | error e => simp [hdec] at hans
    | ok r =>
      obtain ⟨answer, d2⟩ := r
      simp only [hdec] at hans
      cases hrest : decisor_answers decisor d2 rest with
      | error e => simp [hrest] at hans
      | ok r2 =>
        obtain ⟨answers2, d3⟩ := r2
        simp only [hrest, Except.ok.injEq, Prod.mk.injEq] at hans
        obtain ⟨ha, hd⟩ := hans
        subst ha hd
        have hW : 0 < WORD := by simp [WORD]
        cases answer with
        | true =>
          obtain ⟨c1, hrun, hy1, hn1⟩ :=
            ih { c with decision_yes := to_unsigned (c.decision_yes + 1) } d2 d3 answers2
              hslots (Nat.mod_lt _ hW) hn hrest
          refine ⟨c1, ?_, ?_, ?_⟩
          · simp [base_cache.data_store_all, base_cache.data_store, hslots, hdec, hrun]
          · rw [hy1]; simp only [to_unsigned, List.count_cons_self, Nat.mod_add_mod]
            congr 1; omega
          · rw [hn1]; simp
        | false =>
          obtain ⟨c1, hrun, hy1, hn1⟩ :=
            ih { c with decision_no := to_unsigned (c.decision_no + 1) } d2 d3 answers2
              hslots hy (Nat.mod_lt _ hW) hrest
          refine ⟨c1, ?_, ?_, ?_⟩
          · simp [base_cache.data_store_all, base_cache.data_store, hslots, hdec, hrun]
          · rw [hy1]; simp
          · rw [hn1]; simp only [to_unsigned, List.count_cons_self, Nat.mod_add_mod]
            congr 1; omega

theorem always_decisor_answers {M : Type} (m : M) (n : Nat) :
    decisor_answers always_decisor () (List.replicate n m)
      = .ok (List.replicate n true, ()) := by
  induction n with
  | zero => rfl
  | succ n ih => simp [List.replicate_succ, decisor_answers, always_decisor, ih]

theorem round_half_even_near (n b : Nat) (hb : 0 < b) :
    2 * (round_half_even n b * b) ≤ 2 * n + b ∧ 2 * n ≤ 2 * (round_half_even n b * b) + b ∧
    n / b ≤ round_half_even n b ∧ round_half_even n b ≤ n / b + 1 := by
  have hdm := Nat.div_add_mod n b
  have hr := Nat.mod_lt n hb
  unfold round_half_even
  simp only []
  generalize n / b = q at *
  generalize n % b = r at *
  subst hdm
  split_ifs <;> refine ⟨?_, ?_, ?_, ?_⟩ <;> first | omega | nlinarith

theorem double_shift_spec (a b : Nat) (ha : 0 < a) (hb : 0 < b) (hlog : Nat.log2 a ≤ 52) :
    b * 2 ^ 52 ≤ a * 2 ^ double_shift a b ∧ a * 2 ^ double_shift a b < b * 2 ^ 53 := by
  have ha1 := Nat.log2_self_le (Nat.pos_iff_ne_zero.mp ha)
  have ha2 := @Nat.lt_log2_self a
  have hb1 := Nat.log2_self_le (Nat.pos_iff_ne_zero.mp hb)
  have hb2 := @Nat.lt_log2_self b
  have hs : 52 + Nat.log2 b - Nat.log2 a + Nat.log2 a = 52 + Nat.log2 b := by omega
  have hpow : 2 ^ (52 + Nat.log2 b - Nat.log2 a) * 2 ^ Nat.log2 a
      = 4503599627370496 * 2 ^ Nat.log2 b := by
    rw [← pow_add, hs, pow_add]
    norm_num
  have hP : 0 < 2 ^ (52 + Nat.log2 b - Nat.log2 a) := by positivity
  have hsucc : 2 ^ (52 + Nat.log2 b - Nat.log2 a + 1)
      = 2 ^ (52 + Nat.log2 b - Nat.log2 a) * 2 := pow_succ _ _
  rw [pow_succ] at ha2 hb2
  have h52 : (2 : Nat) ^ 52 = 4503599627370496 := by norm_num
  have h53 : (2 : Nat) ^ 53 = 9007199254740992 := by norm_num
  unfold double_shift
  simp only []
  split_ifs with hc
  · refine ⟨hc, ?_⟩
    rw [h53]
    generalize 2 ^ (52 + Nat.log2 b - Nat.log2 a) = P at *
    generalize 2 ^ Nat.log2 a = A at *
    generalize 2 ^ Nat.log2 b = B at *
    have h1 : a * P < A * 2 * P := Nat.mul_lt_mul_of_pos_right ha2 hP
    nlinarith
  · rw [hsucc, h52, h53]
    rw [h52] at hc
    push_neg at hc
    generalize 2 ^ (52 + Nat.log2 b - Nat.log2 a) = P at *
    generalize 2 ^ Nat.log2 a = A at *
    generalize 2 ^ Nat.log2 b = B at *
    have h2 : A * P ≤ a * P := Nat.mul_le_mul_right P ha1
    constructor <;> nlinarith

theorem double_significand_range (a b : Nat) (ha : 0 < a) (hb : 0 < b)
    (hlog : Nat.log2 a ≤ 52) :
    2 ^ 52 ≤ double_significand a b ∧ double_significand a b ≤ 2 ^ 53 := by
  obtain ⟨hlo, hhi⟩ := double_shift_spec a b ha hb hlog
  obtain ⟨_, _, h3, h4⟩ := round_half_even_near (a * 2 ^ double_shift a b) b hb
  unfold double_significand
  have hq1 : 2 ^ 52 ≤ a * 2 ^ double_shift a b / b := by
    rw [Nat.le_div_iff_mul_le hb]
    rw [Nat.mul_comm]; exact hlo
  have hq2 : a * 2 ^ double_shift a b / b < 2 ^ 53 := by
    rw [Nat.div_lt_iff_lt_mul hb]
    linarith
  omega

theorem double_div_near (a b : Nat) (ha : 0 < a) (hb : 0 < b) (hlog : Nat.log2 a ≤ 52) :
    |double_div a b - (a : ℚ) / (b : ℚ)| ≤ 1 / 2 ^ (double_shift a b + 1) ∧
    |double_div a b - (a : ℚ) / (b : ℚ)| ≤ (a : ℚ) / (b : ℚ) / 2 ^ 53 := by
  obtain ⟨hlo, _⟩ := double_shift_spec a b ha hb hlog
  obtain ⟨h1, h2, _, _⟩ := round_half_even_near (a * 2 ^ double_shift a b) b hb
  have hne : a ≠ 0 := Nat.pos_iff_ne_zero.mp ha
  simp only [double_div, hne, if_false]
  rw [pow_succ]
  change 2 * (double_significand a b * b) ≤ 2 * (a * 2 ^ double_shift a b) + b at h1
  change 2 * (a * 2 ^ double_shift a b) ≤ 2 * (double_significand a b * b) + b at h2
  have hbq : (0 : ℚ) < b := by exact_mod_cast hb
  have haq : (0 : ℚ) < a := by exact_mod_cast ha
  have hp : (0 : ℚ) < 2 ^ double_shift a b := by positivity
  have h1q : 2 * ((double_significand a b : ℚ) * b)
      ≤ 2 * ((a : ℚ) * 2 ^ double_shift a b) + b := by exact_mod_cast h1
  have h2q : 2 * ((a : ℚ) * 2 ^ double_shift a b)
      ≤ 2 * ((double_significand a b : ℚ) * b) + b := by exact_mod_cast h2
  have hloq : (b : ℚ) * 2 ^ 52 ≤ (a : ℚ) * 2 ^ double_shift a b := by exact_mod_cast hlo
  generalize (double_significand a b : ℚ) = m at *
  generalize (2 : ℚ) ^ double_shift a b = p at *
  have hdiff : m / p - (a : ℚ) / b = (m * b - a * p) / (p * b) := by
    field_simp
    ring
  have hpb : (0 : ℚ) < p * b := by positivity
  have habs : |m * b - (a : ℚ) * p| ≤ b / 2 := by
    rw [abs_le]; constructor <;> linarith
  have hmain : |m / p - (a : ℚ) / b| ≤ 1 / (p * 2) := by
    rw [hdiff, abs_div, abs_of_pos hpb, div_le_div_iff₀ hpb (by positivity)]
    calc |m * b - (a : ℚ) * p| * (p * 2) ≤ b / 2 * (p * 2) := by
          apply mul_le_mul_of_nonneg_right habs (by positivity)
      _ = 1 * (p * b) := by ring
  refine ⟨hmain, le_trans hmain ?_⟩
  rw [div_div, div_le_div_iff₀ (by positivity) (by positivity)]
  have h53 : (2 : ℚ) ^ 53 = 2 * 2 ^ 52 := by norm_num
  rw [h53]
  nlinarith

theorem double_div_exact (a b : Nat) (ha : 0 < a) (hb : 0 < b)
    (hdiv : (a * 2 ^ double_shift a b) % b = 0) :
    double_div a b = (a : ℚ) / (b : ℚ) := by
  have hne : a ≠ 0 := Nat.pos_iff_ne_zero.mp ha
  have hm : double_significand a b = a * 2 ^ double_shift a b / b := by
    unfold double_significand round_half_even
    simp only [hdiv, Nat.mul_zero]
    rw [if_pos hb]
  have hdvd : b ∣ a * 2 ^ double_shift a b := Nat.dvd_of_mod_eq_zero hdiv
  have hbq : (b : ℚ) ≠ 0 := by exact_mod_cast (Nat.pos_iff_ne_zero.mp hb)
  simp only [double_div, hne, if_false, hm]
  rw [Nat.cast_div hdvd hbq]
  push_cast
  field_simp
  ring

theorem log2_le_of_lt_word (a : Nat) (h : a < WORD) : Nat.log2 a ≤ 52 := by
  by_cases ha : a = 0
  · subst ha; simp [Nat.log2_zero]
  · have : Nat.log2 a < 32 := (Nat.log2_lt ha).mpr (by simpa [WORD] using h)
    omega

theorem scripted_one_yes_two_no :
    (base_cache.fresh 1).clear_stat.data_store_all scripted_decisor [true, false, false]
        [(), (), ()]
      = .ok ({ base_cache.fresh 1 with decision_yes := 1, decision_no := 2 }, []) := rfl

theorem decision_ratio_one_yes_two_no :
    ({ base_cache.fresh 1 with decision_yes := 1, decision_no := 2 } : base_cache).decision_ratio
      = 6004799503160661 / 18014398509481984 := by
  have h1 : double_shift 1 3 = 54 := by decide!
  have h2 : double_significand 1 3 = 6004799503160661 := by decide!
  have h3 : to_unsigned (1 + 2) = 3 := by decide
  simp only [base_cache.decision_ratio, h3, double_div, h1, h2]
  norm_num

/-- C8, counterexample: from cleared counters, on a cache of capacity 1 whose policy stores
everything, `2 ^ 32` calls of `base_cache::data_store` are `2 ^ 32` positive decisions and
leave the 32 bit counter `decision_yes` at 0.  And after one positive and two negative
decisions the ratio recorded by `finish` is the `double` `6004799503160661 / 2 ^ 54`
(printed 0.33333333333333331), not `1/3`. -/
theorem counter_accounting_counterexample :
    decisor_answers always_decisor () (List.replicate WORD ())
      = .ok (List.replicate WORD true, ()) ∧
    (List.replicate WORD true).count true = 4294967296 ∧
    (((base_cache.fresh 1).clear_stat.data_store_all always_decisor ()
        (List.replicate WORD ())).toOption.map fun r => r.1.decision_yes) = some 0 ∧
    decisor_answers scripted_decisor [true, false, false] [(), (), ()]
      = .ok ([true, false, false], []) ∧
    (((base_cache.fresh 1).clear_stat.data_store_all scripted_decisor [true, false, false]
        [(), (), ()]).toOption.map
      fun r => (r.1.decision_yes, r.1.decision_no, r.1.decision_ratio))
      = some (1, 2, 6004799503160661 / 18014398509481984) ∧
    (6004799503160661 / 18014398509481984 : ℚ) ≠ 1 / (1 + 2) := by
  refine ⟨always_decisor_answers () WORD, by rw [List.count_replicate_self]; rfl, ?_, rfl, ?_,
    by norm_num⟩
  · obtain ⟨c1, hrun, hy, _⟩ :=
      data_store_all_counters always_decisor (List.replicate WORD ())
        (base_cache.fresh 1).clear_stat () () (List.replicate WORD true)
        (by decide) (by decide) (by decide) (always_decisor_answers () WORD)
    rw [hrun]
    simp only [Except.toOption, Option.map_some']
    rw [hy, List.count_replicate_self]
    show some ((0 + WORD) % WORD) = some 0
    rw [Nat.zero_add, Nat.mod_self]
  · rw [scripted_one_yes_two_no]
    simp only [Except.toOption, Option.map_some']
    rw [decision_ratio_one_yes_two_no]

/-- C8, amended: starting from cleared counters, after any sequence of
`base_cache::data_store` calls on a cache with capacity > 0 in which the decision policy
answered yes `M` times and no `K` times, the 32 bit counters hold `decision_yes = M mod 2^32`
and `decision_no = K mod 2^32`; when `M + K < 2^32` they are `M` and `K`, and the decision
ratio computed by `finish` is 0 when `M + K = 0` and otherwise the `double` quotient
`(double)M / (M+K)`: 0 when `M = 0`, and for `M > 0` the value with a significand of 53 bits
nearest to `M/(M+K)`, within half a unit of the last place and within a relative `2 ^ -53`
of `M/(M+K)`, equal to `M/(M+K)` when that quotient needs no rounding. -/
theorem counter_accounting {δ M : Type} (decisor : δ → M → Except String (Bool × δ))
    (c : base_cache) (d d1 : δ) (msgs : List M) (answers : List Bool)
    (hslots : c.cache_slots > 0)
    (hans : decisor_answers decisor d msgs = .ok (answers, d1)) :
    ∃ c1, c.clear_stat.data_store_all decisor d msgs = .ok (c1, d1) ∧
      c1.decision_yes = answers.count true % WORD ∧
      c1.decision_no = answers.count false % WORD ∧
      (answers.count true + answers.count false < WORD →
        c1.decision_yes = answers.count true ∧
        c1.decision_no = answers.count false ∧
        c1.decision_ratio =
          (if answers.count true + answers.count false = 0 then 0
           else double_div (answers.count true)
             (answers.count true + answers.count false)) ∧
        (answers.count true = 0 → c1.decision_ratio = 0) ∧
        (0 < answers.count true →
          c1.decision_ratio =
            (double_significand (answers.count true)
                (answers.count true + answers.count false) : ℚ) /
              2 ^ double_shift (answers.count true)
                (answers.count true + answers.count false) ∧
          2 ^ 52 ≤ double_significand (answers.count true)
              (answers.count true + answers.count false) ∧
          double_significand (answers.count true)
              (answers.count true + answers.count false) ≤ 2 ^ 53 ∧
          |c1.decision_ratio - (answers.count true : ℚ) /
              ((answers.count true + answers.count false : ℕ) : ℚ)|
            ≤ 1 / 2 ^ (double_shift (answers.count true)
                (answers.count true + answers.count false) + 1) ∧
          |c1.decision_ratio - (answers.count true : ℚ) /
              ((answers.count true + answers.count false : ℕ) : ℚ)|
            ≤ (answers.count true : ℚ) /
                ((answers.count true + answers.count false : ℕ) : ℚ) / 2 ^ 53 ∧
          ((answers.count true * 2 ^ double_shift (answers.count true)
                (answers.count true + answers.count false))
              % (answers.count true + answers.count false) = 0 →
            c1.decision_ratio = (answers.count true : ℚ) /
              ((answers.count true + answers.count false : ℕ) : ℚ)))) := by
  have hW : 0 < WORD := by simp [WORD]
  obtain ⟨c1, hrun, hy, hn⟩ :=
    data_store_all_counters decisor msgs c.clear_stat d d1 answers hslots hW hW hans
  simp only [base_cache.clear_stat, Nat.zero_add] at hy hn
  refine ⟨c1, hrun, hy, hn, fun hlt => ?_⟩
  have hy1 : c1.decision_yes = answers.count true := by
    rw [hy]; exact Nat.mod_eq_of_lt (by omega)
  have hn1 : c1.decision_no = answers.count false := by
    rw [hn]; exact Nat.mod_eq_of_lt (by omega)
  have hratio : c1.decision_ratio =
      (if answers.count true + answers.count false = 0 then 0
       else double_div (answers.count true) (answers.count true + answers.count false)) := by
    simp only [base_cache.decision_ratio, to_unsigned, hy1, hn1, Nat.mod_eq_of_lt hlt]
  refine ⟨hy1, hn1, hratio, ?_, ?_⟩
  · intro h0
    rw [hratio]
    split
    · rfl
    · simp [double_div, h0]
  · intro hpos
    have hsum : 0 < answers.count true + answers.count false := by omega
    have hlog := log2_le_of_lt_word (answers.count true) (by omega)
    have hval : c1.decision_ratio
        = double_div (answers.count true) (answers.count true + answers.count false) := by
      rw [hratio, if_neg (by omega)]
    obtain ⟨hr1, hr2⟩ := double_significand_range _ _ hpos hsum hlog
    obtain ⟨hn1, hn2⟩ := double_div_near _ _ hpos hsum hlog
    refine ⟨?_, hr1, hr2, by rw [hval]; exact hn1, by rw [hval]; exact hn2, ?_⟩
    · rw [hval]
      simp [double_div, Nat.pos_iff_ne_zero.mp hpos]
    · intro hdiv
      rw [hval]
      exact double_div_exact _ _ hpos hsum hdiv

/-- C8, witness: capacity 1 and three messages, one stored and two refused. -/
theorem counter_accounting_witness :
    (base_cache.fresh 1).cache_slots > 0 ∧
    decisor_answers scripted_decisor [true, false, false] [(), (), ()]
      = .ok ([true, false, false], []) ∧
    [true, false, false].count true + [true, false, false].count false < WORD ∧
    ∃ c1, (base_cache.fresh 1).clear_stat.data_store_all scripted_decisor
          [true, false, false] [(), (), ()] = .ok (c1, []) ∧
      c1.decision_yes = 1 ∧ c1.decision_no = 2 ∧
      c1.decision_ratio = double_div 1 (1 + 2) ∧
      |c1.decision_ratio - ((1 : ℕ) : ℚ) / ((1 + 2 : ℕ) : ℚ)|
        ≤ ((1 : ℕ) : ℚ) / ((1 + 2 : ℕ) : ℚ) / 2 ^ 53 :=
  ⟨by decide, rfl, by decide,
    (counter_accounting scripted_decisor (base_cache.fresh 1) [true, false, false] []
      [(), (), ()] [true, false, false] (by decide) rfl).elim
      fun c1 h => ⟨c1, h.1, (h.2.2.2 (by decide)).1, (h.2.2.2 (by decide)).2.1,
        (h.2.2.2 (by decide)).2.2.1, ((h.2.2.2 (by decide)).2.2.2.2 (by decide)).2.2.2.2.1⟩⟩

/-! ## C9: representation masks of the keys -/

theorem mask_cleared (h : chunk_t) :
    __representation_mask (__srepresentation_mask h 0) = 0 := rfl

theorem data_lookup_eq (b : Build) (c : base_cache) (chunk : chunk_t) :
    c.data_lookup b chunk = .ok (c.cache.find (__srepresentation_mask chunk 0)).join := by
  unfold base_cache.data_lookup base_cache.find_in_cache
  simp only [mask_cleared, bne_self_eq_false, Bool.and_false, Bool.false_eq_true, if_false]
  cases c.cache.find (__srepresentation_mask chunk 0) <;> rfl

theorem lookup_name_eq (b : Build) (c : base_cache) (chunk : chunk_t) :
    c.lookup_name b chunk
      = .ok (c.cache.find (__srepresentation_mask chunk 0)).join.isSome := by
  unfold base_cache.lookup_name
  rw [data_lookup_eq]

theorem apply_calls_keys (b : Build) (calls : List table_call) :
    ∀ c c1 : base_cache,
      (∀ key, c.cache.find key ≠ none → __representation_mask key = 0) →
      c.apply_calls b calls = .ok c1 →
      ∀ key, c1.cache.find key ≠ none → __representation_mask key = 0 := by
  induction calls with
  | nil =>
    intro c c1 hc h
    simp only [base_cache.apply_calls, Except.ok.injEq] at h
    subst h
    exact hc
  | cons call rest ih =>
    intro c c1 hc h
    simp only [base_cache.apply_calls] at h
    cases call with
    | insert chunk_id descr s =>
      simp only [base_cache.apply_call] at h
      cases hins : c.insert_into_cache b chunk_id descr s with
      | error e => rw [hins] at h; cases h
      | ok c2 =>
        rw [hins] at h
        refine ih c2 c1 ?_ h
        intro key hkey
        rw [(insert_into_cache_occupied b c c2 chunk_id descr s hins).2.2] at hkey
        simp only [cache_map.find, cache_map.assign] at hkey
        by_cases hk : key = __srepresentation_mask chunk_id 0
        · rw [hk]; rfl
        · rw [if_neg hk] at hkey
          exact hc key hkey
    | remove chunk_id s =>
      simp only [base_cache.apply_call] at h
      refine ih _ c1 ?_ h
      intro key hkey
      rw [(remove_from_cache_occupied c chunk_id s).2.2] at hkey
      simp only [cache_map.find, cache_map.erase] at hkey
      by_cases hk : key = __srepresentation_mask chunk_id 0
      · rw [hk]; rfl
      · rw [if_neg hk] at hkey
        exact hc key hkey

/-- C9, counterexample: `find_in_cache`, the lookup of the slot table, does not clear the
mask.  In a build without `SEVERE_DEBUG`, called with the identifier `(1, 0, mask 1)` it
queries no key of mask zero; on the table that holds `(1, 0, mask 0)` it reports the key
absent, while `data_lookup` of the same identifier finds the entry. -/
theorem mask_invariant_counterexample :
    (¬ ∃ key : chunk_t, __representation_mask key = 0 ∧
        ∀ c : base_cache, c.find_in_cache release_build ⟨1, 0, 1⟩ = .ok (c.cache.find key)) ∧
    (((base_cache.fresh 2).insert_into_cache release_build ⟨1, 0, 0⟩ (some ⟨⟨1, 0, 1⟩⟩)
        1).toOption.map fun c =>
      (c.find_in_cache release_build ⟨1, 0, 1⟩, c.data_lookup release_build ⟨1, 0, 1⟩))
      = some (.ok none, .ok (some ⟨⟨1, 0, 1⟩⟩)) := by
  refine ⟨?_, rfl⟩
  rintro ⟨key, hkey, h⟩
  have h1 := h { base_cache.fresh 1 with cache := cache_map.empty.assign key none }
  simp only [base_cache.find_in_cache, release_build, Bool.false_and, Bool.false_eq_true,
    if_false, cache_map.find, cache_map.assign, cache_map.empty, if_true, Except.ok.injEq] at h1
  by_cases hk : (⟨1, 0, 1⟩ : chunk_t) = key
  · rw [← hk] at hkey
    cases hkey
  · rw [if_neg hk] at h1
    cases h1

/-- C9, amended: for every identifier, with any representation mask, passed to
`insert_into_cache`, `remove_from_cache`, `data_lookup` or `lookup_name`, the key stored,
erased or queried is the identifier with its mask cleared, which has mask zero;
`find_in_cache` queries the identifier as it is passed, so its key has mask zero when the
caller cleared it, and in a `SEVERE_DEBUG` build it signals an error for any other
identifier; every key of the table has mask zero in every state reached from the empty
table by insertions and removals.  The last conjunct is the general form of the query of
`find_in_cache`: in a build without `SEVERE_DEBUG` it queries the identifier exactly as
passed, whatever its mask. -/
theorem mask_invariant (b : Build) :
    (∀ (c c1 : base_cache) (chunk_id : chunk_t) (descr : Option cache_item_descriptor)
        (s : Nat), c.insert_into_cache b chunk_id descr s = .ok c1 →
        c1.cache = c.cache.assign (__srepresentation_mask chunk_id 0) descr) ∧
    (∀ (c : base_cache) (chunk_id : chunk_t) (s : Nat),
        (c.remove_from_cache chunk_id s).cache
          = c.cache.erase (__srepresentation_mask chunk_id 0)) ∧
    (∀ (c : base_cache) (chunk : chunk_t),
        c.data_lookup b chunk = .ok (c.cache.find (__srepresentation_mask chunk 0)).join ∧
        c.lookup_name b chunk
          = .ok (c.cache.find (__srepresentation_mask chunk 0)).join.isSome) ∧
    (∀ chunk : chunk_t, __representation_mask (__srepresentation_mask chunk 0) = 0) ∧
    (∀ (c : base_cache) (chunk : chunk_t), __representation_mask chunk = 0 →
        c.find_in_cache b chunk = .ok (c.cache.find chunk)) ∧
    (∀ (c : base_cache) (chunk : chunk_t), b.SEVERE_DEBUG = true →
        __representation_mask chunk ≠ 0 → ∃ e, c.find_in_cache b chunk = .error e) ∧
    (∀ (slots : Nat) (calls : List table_call) (c1 : base_cache),
        (base_cache.fresh slots).apply_calls b calls = .ok c1 →
        ∀ key, c1.cache.find key ≠ none → __representation_mask key = 0) ∧
    (b.SEVERE_DEBUG = false → ∀ (c : base_cache) (chunk : chunk_t),
        c.find_in_cache b chunk = .ok (c.cache.find chunk)) := by
  refine ⟨?_, ?_, ?_, mask_cleared, ?_, ?_, ?_, ?_⟩
  · intro c c1 chunk_id descr s h
    exact (insert_into_cache_occupied b c c1 chunk_id descr s h).2.2
  · intro c chunk_id s
    exact (remove_from_cache_occupied c chunk_id s).2.2
  · intro c chunk
    exact ⟨data_lookup_eq b c chunk, lookup_name_eq b c chunk⟩
  · intro c chunk h0
    simp [base_cache.find_in_cache, h0]
  · intro c chunk hb hm
    refine ⟨"The identifier of the object you are searching for must be representation-agnostic", ?_⟩
    simp [base_cache.find_in_cache, hb, hm]
  · intro slots calls c1 h
    refine apply_calls_keys b calls (base_cache.fresh slots) c1 ?_ h
    intro key hkey
    exact absurd rfl hkey
  · intro hb c chunk
    simp [base_cache.find_in_cache, hb]

/-- C9, witness: in a `SEVERE_DEBUG` build, the insertion of `(1, 0, mask 3)` completes and
stores under `(1, 0, mask 0)`; `find_in_cache` of `(1, 0, mask 3)` signals an error.
Without `SEVERE_DEBUG`, `find_in_cache` of `(1, 0, mask 3)` queries that very key. -/
theorem mask_invariant_witness :
    (base_cache.fresh 2).insert_into_cache debug_build ⟨1, 0, 3⟩ (some ⟨⟨1, 0, 3⟩⟩) 1
      = .ok { base_cache.fresh 2 with
              occupied_slots := 1,
              cache := cache_map.empty.assign ⟨1, 0, 0⟩ (some ⟨⟨1, 0, 3⟩⟩) } ∧
    { base_cache.fresh 2 with
        occupied_slots := 1,
        cache := cache_map.empty.assign ⟨1, 0, 0⟩ (some ⟨⟨1, 0, 3⟩⟩) }.cache
      = (base_cache.fresh 2).cache.assign (__srepresentation_mask ⟨1, 0, 3⟩ 0)
          (some ⟨⟨1, 0, 3⟩⟩) ∧
    debug_build.SEVERE_DEBUG = true ∧ __representation_mask ⟨1, 0, 3⟩ ≠ 0 ∧
    (∃ e, (base_cache.fresh 2).find_in_cache debug_build ⟨1, 0, 3⟩ = .error e) ∧
    release_build.SEVERE_DEBUG = false ∧
    (base_cache.fresh 2).find_in_cache release_build ⟨1, 0, 3⟩
      = .ok ((base_cache.fresh 2).cache.find ⟨1, 0, 3⟩) :=
  have hins : (base_cache.fresh 2).insert_into_cache debug_build ⟨1, 0, 3⟩
      (some ⟨⟨1, 0, 3⟩⟩) 1
      = .ok { base_cache.fresh 2 with
              occupied_slots := 1,
              cache := cache_map.empty.assign ⟨1, 0, 0⟩ (some ⟨⟨1, 0, 3⟩⟩) } := rfl
  ⟨hins, (mask_invariant debug_build).1 _ _ _ _ _ hins, rfl, by decide,
    (mask_invariant debug_build).2.2.2.2.2.1 _ _ rfl (by decide), rfl,
    (mask_invariant release_build).2.2.2.2.2.2.2 rfl _ _⟩

/-! ## C10: insertion followed by lookup -/

/-- C10, counterexample: in a build without `SEVERE_DEBUG`, inserting `(1, 0, 0)` with the
descriptor `NULL` and size 1 (what `two_cache::data_store` does) binds the key, yet
`data_lookup` returns `NULL` and `lookup_name` reports the entry absent. -/
theorem insert_then_lookup_counterexample :
    (((base_cache.fresh 2).insert_into_cache release_build ⟨1, 0, 0⟩ none 1).toOption.map
      fun c => (c.occupied_slots, c.cache.find ⟨1, 0, 0⟩,
        c.data_lookup release_build ⟨1, 0, 0⟩, c.lookup_name release_build ⟨1, 0, 0⟩))
      = some (1, some none, .ok none, .ok false) := by
  rfl

/-- C10, amended: for every table state, identifier, descriptor `d` that is not `NULL` and
size `s` for which `insert_into_cache` completes, afterwards `occupied_slots` equals its
previous value plus `s` modulo `2 ^ 32` (the previous value plus `s` when that is below
`2 ^ 32`), and `data_lookup` and `lookup_name` of the identifier, under any representation
mask `m`, report the entry as present.  In a build without `SEVERE_DEBUG` the insertion
always completes. -/
theorem insert_then_lookup (b : Build) (c : base_cache) (chunk_id : chunk_t)
    (d : cache_item_descriptor) (s : Nat) :
    (∀ c1 : base_cache, c.insert_into_cache b chunk_id (some d) s = .ok c1 →
      c1.occupied_slots = (c.occupied_slots + s) % WORD ∧
      (c.occupied_slots + s < WORD → c1.occupied_slots = c.occupied_slots + s) ∧
      ∀ m : Nat,
        c1.data_lookup b (__srepresentation_mask chunk_id m) = .ok (some d) ∧
        c1.lookup_name b (__srepresentation_mask chunk_id m) = .ok true) ∧
    (b.SEVERE_DEBUG = false → ∃ c1, c.insert_into_cache b chunk_id (some d) s = .ok c1) := by
  refine ⟨?_, fun hb => ⟨_, insert_into_cache_release b hb c chunk_id (some d) s⟩⟩
  intro c1 h
  obtain ⟨hocc, _, hcache⟩ := insert_into_cache_occupied b c c1 chunk_id (some d) s h
  refine ⟨hocc, fun hlt => by rw [hocc, Nat.mod_eq_of_lt hlt], fun m => ?_⟩
  have hfind : c1.cache.find (__srepresentation_mask (__srepresentation_mask chunk_id m) 0)
      = some (some d) := by
    rw [hcache]
    simp [cache_map.find, cache_map.assign, __srepresentation_mask]
  rw [lookup_name_eq, data_lookup_eq, hfind]
  exact ⟨rfl, rfl⟩

/-- C10, witness: a `SEVERE_DEBUG` build, the identifier `(1, 0, mask 3)` inserted with size
1 and looked up under the masks the theorem ranges over. -/
theorem insert_then_lookup_witness :
    (base_cache.fresh 2).insert_into_cache debug_build ⟨1, 0, 3⟩ (some ⟨⟨1, 0, 3⟩⟩) 1
      = .ok { base_cache.fresh 2 with
              occupied_slots := 1,
              cache := cache_map.empty.assign ⟨1, 0, 0⟩ (some ⟨⟨1, 0, 3⟩⟩) } ∧
    ∀ m : Nat,
      ({ base_cache.fresh 2 with
          occupied_slots := 1,
          cache := cache_map.empty.assign ⟨1, 0, 0⟩ (some ⟨⟨1, 0, 3⟩⟩) } : base_cache).data_lookup
        debug_build (__srepresentation_mask ⟨1, 0, 3⟩ m) = .ok (some ⟨⟨1, 0, 3⟩⟩) ∧
      ({ base_cache.fresh 2 with
          occupied_slots := 1,
          cache := cache_map.empty.assign ⟨1, 0, 0⟩ (some ⟨⟨1, 0, 3⟩⟩) } : base_cache).lookup_name
        debug_build (__srepresentation_mask ⟨1, 0, 3⟩ m) = .ok true :=
  ⟨rfl, ((insert_then_lookup debug_build (base_cache.fresh 2) ⟨1, 0, 3⟩ ⟨⟨1, 0, 3⟩⟩ 1).1
    _ rfl).2.2⟩

/-! ## C11: `remove_from_cache` -/

/-- C11: `remove_from_cache(id, s)` leaves no entry under the mask-cleared `id` and every
other entry as it was; `occupied_slots` becomes its previous value minus `s` modulo
`2 ^ 32` (adding `s` back gives the previous value), and for every `s` not larger than the
previous `occupied_slots` the subtraction is exact although `-1*s` is an `unsigned` product
passed as an `int`. -/
theorem remove_from_cache_exact (c : base_cache) (chunk_id : chunk_t) (s : Nat) :
    (c.remove_from_cache chunk_id s).cache.find (__srepresentation_mask chunk_id 0) = none ∧
    (∀ key, key ≠ __srepresentation_mask chunk_id 0 →
      (c.remove_from_cache chunk_id s).cache.find key = c.cache.find key) ∧
    ((c.remove_from_cache chunk_id s).occupied_slots + s) % WORD = c.occupied_slots % WORD ∧
    (c.occupied_slots < WORD → s ≤ c.occupied_slots →
      (c.remove_from_cache chunk_id s).occupied_slots = c.occupied_slots - s) := by
  obtain ⟨hocc, _, hcache⟩ := remove_from_cache_occupied c chunk_id s
  refine ⟨?_, ?_, ?_, ?_⟩
  · rw [hcache]; simp [cache_map.find, cache_map.erase]
  · intro key hkey
    rw [hcache]; simp [cache_map.find, cache_map.erase, hkey]
  · rw [hocc]; simp only [WORD]; omega
  · intro hlt hle
    rw [hocc]; simp only [WORD] at hlt ⊢; omega

/-- C11, witness: three slots occupied, two given back; and the largest size,
`2 ^ 32 - 1` slots occupied and all of them given back. -/
theorem remove_from_cache_exact_witness :
    ({ base_cache.fresh 5 with occupied_slots := 3 } : base_cache).occupied_slots < WORD ∧
    2 ≤ ({ base_cache.fresh 5 with occupied_slots := 3 } : base_cache).occupied_slots ∧
    (({ base_cache.fresh 5 with occupied_slots := 3 } : base_cache).remove_from_cache
        ⟨1, 0, 7⟩ 2).occupied_slots = 3 - 2 ∧
    (({ base_cache.fresh 5 with occupied_slots := 4294967295 } : base_cache).remove_from_cache
        ⟨1, 0, 7⟩ 4294967295).occupied_slots = 4294967295 - 4294967295 :=
  ⟨by decide, by decide,
    (remove_from_cache_exact { base_cache.fresh 5 with occupied_slots := 3 } ⟨1, 0, 7⟩ 2).2.2.2
      (by decide) (by decide),
    (remove_from_cache_exact { base_cache.fresh 5 with occupied_slots := 4294967295 }
      ⟨1, 0, 7⟩ 4294967295).2.2.2 (by decide) (by decide)⟩

/-! ## C12: what `Costprobtail::data_to_cache` changes -/

theorem data_to_cache_policy {K : Type} [LinearOrder K] (b : Build)
    (w : chunk_t → K → K) (p p1 : Costprobtail K) (mycache : lru_cache K)
    (data_msg : ccn_data K) (r : K) (decision : Bool)
    (h : p.data_to_cache b w mycache data_msg r = .ok (decision, p1)) :
    p1 = if decision then p.set_last_accepted_content_cost data_msg else p := by
  unfold Costprobtail.data_to_cache at h
  split at h
  · cases h
  · split at h
    · cases h
    · simp only [Except.ok.injEq, Prod.mk.injEq] at h
      obtain ⟨hd, hp⟩ := h
      subst hd hp
      rfl
    · simp only [Except.ok.injEq, Prod.mk.injEq] at h
      obtain ⟨hd, hp⟩ := h
      subst hd hp
      rfl

theorem data_to_cache_returns {K : Type} [LinearOrder K] (b : Build)
    (w : chunk_t → K → K) (p : Costprobtail K) (mycache : lru_cache K)
    (data_msg : ccn_data K) (r : K)
    (hinit : b.SEVERE_DEBUG = true → mycache.is_initialized = true)
    (hlru : mycache.full = true → mycache.get_lru ≠ none) :
    ∃ decision p1, p.data_to_cache b w mycache data_msg r = .ok (decision, p1) := by
  rw [data_to_cache_of_decision b w p mycache data_msg r hinit]
  have hdec : ∃ dec, p.decision w mycache data_msg r = .ok dec := by
    unfold Costprobtail.decision
    cases hfull : mycache.full with
    | false => exact ⟨true, by simp⟩
    | true =>
      cases hget : mycache.get_lru with
      | none => exact absurd hget (hlru hfull)
      | some lru =>
        simp only [Bool.not_true, Bool.false_eq_true, if_false]
        by_cases hgt : w data_msg.getChunk data_msg.getCost > w lru.k lru.cost
        · exact ⟨true, by simp [hgt]⟩
        · by_cases hr : r < p.xi
          · exact ⟨false, by simp [hgt, hr]⟩
          · exact ⟨true, by simp [hgt, hr]⟩
  obtain ⟨dec, hdec⟩ := hdec
  rw [hdec]
  cases dec with
  | false => exact ⟨false, p, rfl⟩
  | true => exact ⟨true, p.set_last_accepted_content_cost data_msg, rfl⟩

theorem data_to_cache_step_pure {K : Type} [LinearOrder K] (b : Build)
    (w : chunk_t → K → K) (s : Costprobtail_state K) (data_msg : ccn_data K) (r : K) :
    Costprobtail.data_to_cache_step b (pure_weight w) s data_msg r =
      match s.policy.data_to_cache b w s.mycache data_msg r with
      | .error e => .error e
      | .ok (decision, p1) => .ok (decision, { policy := p1, mycache := s.mycache }) := by
  unfold Costprobtail.data_to_cache_step Costprobtail.data_to_cache Costprobtail.decision
  simp only [lru_cache.call_is_initialized, lru_cache.call_full,
    lru_cache.call_get_occupied_slots, lru_cache.call_get_slots, lru_cache.call_get_lru,
    pure_weight, base_cache.full, base_cache.get_occupied_slots, base_cache.get_slots]
  cases hb : b.SEVERE_DEBUG <;> cases hi : s.mycache.is_initialized <;>
    cases hf : (s.mycache.occupied_slots == s.mycache.cache_slots) <;>
    cases hl : s.mycache.get_lru <;> simp
  all_goals (split_ifs <;> simp_all)

/-- With a weight function that has a side effect the store comes back changed: the two
calls of `compute_content_weight` made on the full sample store each drop an entry of the
recency list, and the state returned by the decision holds the emptied list. -/
theorem data_to_cache_step_hands_on_weight_state :
    (Costprobtail.data_to_cache_step debug_build dropping_weight
        { policy := sample_policy ℚ, mycache := sample_full_store ℚ } (light_unit ℚ)
        (1 / 4)).toOption.map (fun r => (r.1, r.2.mycache.lru_list.length)) = some (false, 0) ∧
    (sample_full_store ℚ).lru_list.length = 2 := by
  constructor
  · simp [Costprobtail.data_to_cache_step, lru_cache.call_is_initialized, lru_cache.call_full,
      lru_cache.call_get_occupied_slots, lru_cache.call_get_slots, lru_cache.call_get_lru,
      dropping_weight, debug_build, sample_full_store, base_cache.fresh, lru_cache.get_lru,
      sample_weight, light_unit, ccn_data.getChunk, ccn_data.getCost, sample_policy,
      Except.toOption]
    norm_num
  · rfl

/-- C12: `Costprobtail::data_to_cache`, run statement by statement on the policy and the
store behind `mycache` with a weight function that leaves the state alone (the spec's
content weight model is a pure function without state), leaves the attached store as it
was (entries, recency order, cost fields, `occupied_slots`, capacity) and leaves `xi` and
`alpha` alone; the last-accepted-cost slot holds the cost of the unit when true is
returned and its old content when false is returned.  The call returns on every
initialized store that, when full, has a least recently used entry. -/
theorem data_to_cache_frame {K : Type} [LinearOrder K] (b : Build)
    (weight : chunk_t → K → Costprobtail_state K → K × Costprobtail_state K)
    (hweight : ∀ chunk cost s, (weight chunk cost s).2 = s)
    (s : Costprobtail_state K) (data_msg : ccn_data K) (r : K) :
    (∀ (decision : Bool) (s1 : Costprobtail_state K),
      Costprobtail.data_to_cache_step b weight s data_msg r = .ok (decision, s1) →
        s1.mycache = s.mycache ∧
        s1.policy.xi = s.policy.xi ∧ s1.policy.alpha = s.policy.alpha ∧
        (decision = true →
          s1.policy.last_accepted_content_cost = data_msg.getCost) ∧
        (decision = false → s1.policy = s.policy)) ∧
    ((b.SEVERE_DEBUG = true → s.mycache.is_initialized = true) →
      (s.mycache.full = true → s.mycache.get_lru ≠ none) →
      ∃ decision s1, Costprobtail.data_to_cache_step b weight s data_msg r
        = .ok (decision, s1)) := by
  have hshape : ∀ (decision : Bool) (s1 : Costprobtail_state K),
      Costprobtail.data_to_cache_step b weight s data_msg r = .ok (decision, s1) →
      s1 = { policy := if decision then s.policy.set_last_accepted_content_cost data_msg
                       else s.policy,
             mycache := s.mycache } := by
    intro decision s1 h
    unfold Costprobtail.data_to_cache_step at h
    simp only [lru_cache.call_is_initialized, lru_cache.call_full,
      lru_cache.call_get_occupied_slots, lru_cache.call_get_slots, lru_cache.call_get_lru,
      hweight] at h
    cases hb : b.SEVERE_DEBUG <;> cases hi : s.mycache.is_initialized <;>
      cases hf : (s.mycache.occupied_slots == s.mycache.cache_slots) <;>
      cases hl : s.mycache.get_lru <;> simp [hb, hi, hf, hl] at h
    all_goals (first | (obtain ⟨hd, hs⟩ := h; subst hd hs; rfl) | skip)
    all_goals (split_ifs at h <;> simp at h <;> obtain ⟨hd, hs⟩ := h <;> subst hd hs <;> rfl)
  constructor
  · intro decision s1 h
    have hs1 := hshape decision s1 h
    subst hs1
    cases decision <;> simp [Costprobtail.set_last_accepted_content_cost]
  · intro hinit hlru
    unfold Costprobtail.data_to_cache_step
    simp only [lru_cache.call_is_initialized, lru_cache.call_full,
      lru_cache.call_get_occupied_slots, lru_cache.call_get_slots, lru_cache.call_get_lru,
      hweight]
    have hi : b.SEVERE_DEBUG = false ∨ s.mycache.is_initialized = true := by
      cases hb : b.SEVERE_DEBUG
      · exact Or.inl rfl
      · exact Or.inr (hinit hb)
    cases hf : (s.mycache.occupied_slots == s.mycache.cache_slots) with
    | false =>
      refine ⟨true, { policy := s.policy.set_last_accepted_content_cost data_msg,
                      mycache := s.mycache }, ?_⟩
      rcases hi with hi | hi <;> simp [hi, hf]
    | true =>
      have hfull : s.mycache.full = true := by
        simpa [base_cache.full, base_cache.get_occupied_slots, base_cache.get_slots] using hf
      cases hl : s.mycache.get_lru with
      | none => exact absurd hl (hlru hfull)
      | some lru =>
        by_cases hgt : (weight data_msg.getChunk data_msg.getCost s).1
            > (weight lru.k lru.cost s).1
        · refine ⟨true, { policy := s.policy.set_last_accepted_content_cost data_msg,
                          mycache := s.mycache }, ?_⟩
          rcases hi with hi | hi <;> simp [hi, hf, hl, hgt]
        · by_cases hr : r < s.policy.xi
          · refine ⟨false, s, ?_⟩
            rcases hi with hi | hi <;> simp [hi, hf, hl, hgt, hr]
          · refine ⟨true, { policy := s.policy.set_last_accepted_content_cost data_msg,
                            mycache := s.mycache }, ?_⟩
            rcases hi with hi | hi <;> simp [hi, hf, hl, hgt, hr]

/-- C12, witness: on the full sample store the unit of weight 1 is rejected at draw `1/4`
(slot untouched) and accepted at draw `3/4` (slot set to its cost 4); the store comes back
as it was. -/
theorem data_to_cache_frame_witness :
    (∀ (chunk : chunk_t) (cost : ℚ) (s : Costprobtail_state ℚ),
      (pure_weight sample_weight chunk cost s).2 = s) ∧
    Costprobtail.data_to_cache_step debug_build (pure_weight sample_weight)
        { policy := sample_policy ℚ, mycache := sample_full_store ℚ } (light_unit ℚ) (1 / 4)
      = .ok (false, { policy := sample_policy ℚ, mycache := sample_full_store ℚ }) ∧
    Costprobtail.data_to_cache_step debug_build (pure_weight sample_weight)
        { policy := sample_policy ℚ, mycache := sample_full_store ℚ } (light_unit ℚ) (3 / 4)
      = .ok (true, { policy := { sample_policy ℚ with last_accepted_content_cost := 4 },
                     mycache := sample_full_store ℚ }) ∧
    ({ policy := { sample_policy ℚ with last_accepted_content_cost := 4 },
       mycache := sample_full_store ℚ } : Costprobtail_state ℚ).mycache = sample_full_store ℚ ∧
    ({ policy := { sample_policy ℚ with last_accepted_content_cost := 4 },
       mycache := sample_full_store ℚ } : Costprobtail_state ℚ).policy.last_accepted_content_cost
      = (light_unit ℚ).getCost :=
  have hno : Costprobtail.data_to_cache_step debug_build (pure_weight sample_weight)
        { policy := sample_policy ℚ, mycache := sample_full_store ℚ } (light_unit ℚ) (1 / 4)
      = .ok (false, { policy := sample_policy ℚ, mycache := sample_full_store ℚ }) := by
    simp [Costprobtail.data_to_cache_step, lru_cache.call_is_initialized, lru_cache.call_full,
      lru_cache.call_get_occupied_slots, lru_cache.call_get_slots, lru_cache.call_get_lru,
      pure_weight, debug_build, sample_full_store, base_cache.fresh, lru_cache.get_lru,
      sample_weight, light_unit, ccn_data.getChunk, ccn_data.getCost, sample_policy]
    norm_num
  have hyes : Costprobtail.data_to_cache_step debug_build (pure_weight sample_weight)
        { policy := sample_policy ℚ, mycache := sample_full_store ℚ } (light_unit ℚ) (3 / 4)
      = .ok (true, { policy := { sample_policy ℚ with last_accepted_content_cost := 4 },
                     mycache := sample_full_store ℚ }) := by
    simp [Costprobtail.data_to_cache_step, lru_cache.call_is_initialized, lru_cache.call_full,
      lru_cache.call_get_occupied_slots, lru_cache.call_get_slots, lru_cache.call_get_lru,
      pure_weight, debug_build, sample_full_store, base_cache.fresh, lru_cache.get_lru,
      sample_weight, light_unit, ccn_data.getChunk, ccn_data.getCost, sample_policy,
      Costprobtail.set_last_accepted_content_cost]
    norm_num
  have hframe := (data_to_cache_frame debug_build (pure_weight sample_weight)
    (fun _ _ _ => rfl)
    { policy := sample_policy ℚ, mycache := sample_full_store ℚ } (light_unit ℚ) (3 / 4)).1
    _ _ hyes
  ⟨fun _ _ _ => rfl, hno, hyes, hframe.1, hframe.2.2.2.1 rfl⟩

/-! ## C13: the decision counters across the operations of the node -/

theorem data_store_effect {δ M : Type} (decisor : δ → M → Except String (Bool × δ))
    (c c1 : base_cache) (d d1 : δ) (data_msg : M) (rv : Bool)
    (h : c.data_store decisor d data_msg = .ok (rv, c1, d1)) :
    (rv = true ∧ c1 = { c with decision_yes := to_unsigned (c.decision_yes + 1) }) ∨
    (rv = false ∧ c1 = { c with decision_no := to_unsigned (c.decision_no + 1) }) := by
  unfold base_cache.data_store at h
  split at h
  · split at h
    · cases h
    · simp only [Except.ok.injEq, Prod.mk.injEq] at h
      exact Or.inl ⟨h.1.symm, h.2.1.symm⟩
    · simp only [Except.ok.injEq, Prod.mk.injEq] at h
      exact Or.inr ⟨h.1.symm, h.2.1.symm⟩
  · simp only [Except.ok.injEq, Prod.mk.injEq] at h
    exact Or.inr ⟨h.1.symm, h.2.1.symm⟩

theorem data_store_counters_step {δ M : Type} (decisor : δ → M → Except String (Bool × δ))
    (c c1 : base_cache) (d d1 : δ) (data_msg : M) (rv : Bool)
    (h : c.data_store decisor d data_msg = .ok (rv, c1, d1)) :
    (c.decision_yes + 1 < WORD → c.decision_yes ≤ c1.decision_yes) ∧
    (c.decision_no + 1 < WORD → c.decision_no ≤ c1.decision_no) := by
  rcases data_store_effect decisor c c1 d d1 data_msg rv h with ⟨_, hc⟩ | ⟨_, hc⟩
  · subst hc
    refine ⟨fun hlt => ?_, fun _ => le_refl _⟩
    simp only [to_unsigned, Nat.mod_eq_of_lt hlt]
    omega
  · subst hc
    refine ⟨fun _ => le_refl _, fun hlt => ?_⟩
    simp only [to_unsigned, Nat.mod_eq_of_lt hlt]
    omega

/-- C13, counterexample: after one positive decision `decision_yes` is 1, and
`set_decision_yes(0)` brings it down to 0. -/
theorem decision_counters_counterexample :
    (match (base_cache.fresh 1).call release_build always_decisor (0 : ℚ) ()
        (node_call.data_store { chunk := ⟨1, 0, 0⟩, cost := 0 }) with
      | .ok (c1, d1) =>
        match c1.call release_build always_decisor (0 : ℚ) d1 (node_call.set_decision_yes 0) with
        | .ok (c2, _) => some (c1.decision_yes, c2.decision_yes)
        | .error _ => none
      | .error _ => none) = some (1, 0) := by
  decide

/-- C13, amended: across `data_store`, `store_name`, `handle_interest`, `insert_into_cache`
and `remove_from_cache` the 32 bit counters `decision_yes` and `decision_no` do not
decrease, as long as the counter is below its largest value `2 ^ 32 - 1` (there the
increment wraps to 0); `set_decision_yes(n)` and `set_decision_no(n)` overwrite their
counter with `n`, whatever it held; `clear_stat` sets both, and `hit` and `miss`, to 0. -/
theorem decision_counters_across_calls {δ K : Type} (b : Build)
    (decisor : δ → ccn_data K → Except String (Bool × δ)) (default_cost : K)
    (c c1 : base_cache) (d d1 : δ) (call : node_call K)
    (h : c.call b decisor default_cost d call = .ok (c1, d1)) :
    (call.overwrites = false →
      (c.decision_yes + 1 < WORD → c.decision_yes ≤ c1.decision_yes) ∧
      (c.decision_no + 1 < WORD → c.decision_no ≤ c1.decision_no)) ∧
    (∀ n, call = .set_decision_yes n →
      c1.decision_yes = n % WORD ∧ c1.decision_no = c.decision_no) ∧
    (∀ n, call = .set_decision_no n →
      c1.decision_no = n % WORD ∧ c1.decision_yes = c.decision_yes) ∧
    (call = .clear_stat →
      c1.decision_yes = 0 ∧ c1.decision_no = 0 ∧ c1.hit = 0 ∧ c1.miss = 0) := by
  cases call with
  | data_store data_msg =>
    simp only [base_cache.call] at h
    cases hds : c.data_store decisor d data_msg with
    | error e => simp [hds] at h
    | ok r =>
      obtain ⟨rv, c2, d2⟩ := r
      simp only [hds, Except.ok.injEq, Prod.mk.injEq] at h
      obtain ⟨hc, hd⟩ := h
      subst hc hd
      exact ⟨fun _ => data_store_counters_step decisor c c2 d d2 data_msg rv hds,
        by simp, by simp, by simp⟩
  | store_name elem =>
    simp only [base_cache.call, base_cache.store_name] at h
    split at h
    · cases h
    · cases hds : c.data_store decisor d ({ chunk := elem, cost := default_cost } : ccn_data K) with
      | error e => simp [hds] at h
      | ok r =>
        obtain ⟨rv, c2, d2⟩ := r
        simp only [hds, Except.ok.injEq, Prod.mk.injEq] at h
        obtain ⟨hc, hd⟩ := h
        subst hc hd
        exact ⟨fun _ => data_store_counters_step decisor c c2 d d2 _ rv hds,
          by simp, by simp, by simp⟩
  | handle_interest chunk =>
    simp only [base_cache.call, base_cache.handle_interest] at h
    cases hl : c.data_lookup_receiving_interest b chunk with
    | error e => simp [hl] at h
    | ok old =>
      simp only [hl] at h
      cases hs : old.isSome with
      | true =>
        simp only [hs, if_true, Except.ok.injEq, Prod.mk.injEq] at h
        obtain ⟨hc, _⟩ := h
        subst hc
        exact ⟨fun _ => ⟨fun _ => le_refl _, fun _ => le_refl _⟩, by simp, by simp, by simp⟩
      | false =>
        simp only [hs, Bool.false_eq_true, if_false, Except.ok.injEq, Prod.mk.injEq] at h
        obtain ⟨hc, _⟩ := h
        subst hc
        exact ⟨fun _ => ⟨fun _ => le_refl _, fun _ => le_refl _⟩, by simp, by simp, by simp⟩
  | insert_into_cache chunk_id descr s =>
    simp only [base_cache.call] at h
    cases hins : c.insert_into_cache b chunk_id descr s with
    | error e => simp [hins] at h
    | ok c2 =>
      simp only [hins, Except.ok.injEq, Prod.mk.injEq] at h
      obtain ⟨hc, _⟩ := h
      subst hc
      have hy : c2.decision_yes = c.decision_yes ∧ c2.decision_no = c.decision_no := by
        unfold base_cache.insert_into_cache at hins
        cases hck : c.insert_checks b (__srepresentation_mask chunk_id 0) descr with
        | error e => simp [hck] at hins
        | ok u =>
          simp only [hck, Except.ok.injEq] at hins
          subst hins
          exact ⟨rfl, rfl⟩
      exact ⟨fun _ => ⟨fun _ => by rw [hy.1], fun _ => by rw [hy.2]⟩, by simp, by simp, by simp⟩
  | remove_from_cache chunk_id s =>
    simp only [base_cache.call, Except.ok.injEq, Prod.mk.injEq] at h
    obtain ⟨hc, _⟩ := h
    subst hc
    exact ⟨fun _ => ⟨fun _ => le_refl _, fun _ => le_refl _⟩, by simp, by simp, by simp⟩
  | set_decision_yes n =>
    simp only [base_cache.call, Except.ok.injEq, Prod.mk.injEq] at h
    obtain ⟨hc, _⟩ := h
    subst hc
    refine ⟨by simp [node_call.overwrites], ?_, by simp, by simp⟩
    intro m hm
    cases hm
    exact ⟨rfl, rfl⟩
  | set_decision_no n =>
    simp only [base_cache.call, Except.ok.injEq, Prod.mk.injEq] at h
    obtain ⟨hc, _⟩ := h
    subst hc
    refine ⟨by simp [node_call.overwrites], by simp, ?_, by simp⟩
    intro m hm
    cases hm
    exact ⟨rfl, rfl⟩
  | clear_stat =>
    simp only [base_cache.call, Except.ok.injEq, Prod.mk.injEq] at h
    obtain ⟨hc, _⟩ := h
    subst hc
    exact ⟨by simp [node_call.overwrites], by simp, by simp, fun _ => ⟨rfl, rfl, rfl, rfl⟩⟩

/-- C13, witness: one `data_store` on a fresh cache of capacity 1. -/
theorem decision_counters_across_calls_witness :
    (base_cache.fresh 1).call release_build always_decisor (0 : ℚ) ()
        (node_call.data_store { chunk := ⟨1, 0, 0⟩, cost := 0 })
      = .ok ({ base_cache.fresh 1 with decision_yes := 1 }, ()) ∧
    (node_call.data_store ({ chunk := ⟨1, 0, 0⟩, cost := 0 } : ccn_data ℚ)).overwrites = false ∧
    (base_cache.fresh 1).decision_yes + 1 < WORD ∧
    (base_cache.fresh 1).decision_yes
      ≤ ({ base_cache.fresh 1 with decision_yes := 1 } : base_cache).decision_yes :=
  have hcall : (base_cache.fresh 1).call release_build always_decisor (0 : ℚ) ()
        (node_call.data_store { chunk := ⟨1, 0, 0⟩, cost := 0 })
      = .ok ({ base_cache.fresh 1 with decision_yes := 1 }, ()) := rfl
  ⟨hcall, rfl, by decide,
    ((decision_counters_across_calls release_build always_decisor (0 : ℚ) _ _ () ()
      _ hcall).1 rfl).1 (by decide)⟩

/-! ## C14: construction of `Costprobtail` -/

/-- C14: the constructor of `Costprobtail` signals an error for every `xi < 0` and every
`xi > 1`, whatever the store; attached to an `lru_cache` it succeeds for every `xi` with
`0 ≤ xi ≤ 1`, both endpoints included, and keeps that `xi`; so with a compatible store it
signals an error if and only if `xi` is outside `[0,1]`. -/
theorem constructor_error_iff {K : Type} [LinearOrderedField K] (b : Build)
    (xi get_alpha initial_cost : K) (store : lru_cache K) :
    (xi < 0 → ∀ mycache : Option (lru_cache K),
      Costprobtail.constructor b xi get_alpha initial_cost mycache
        = .error "xi is not valid") ∧
    (1 < xi → ∀ mycache : Option (lru_cache K),
      Costprobtail.constructor b xi get_alpha initial_cost mycache
        = .error "xi is not valid") ∧
    (0 ≤ xi → xi ≤ 1 →
      Costprobtail.constructor b xi get_alpha initial_cost (some store)
        = .ok { xi := xi, alpha := get_alpha, last_accepted_content_cost := initial_cost }) ∧
    ((∃ e, Costprobtail.constructor b xi get_alpha initial_cost (some store) = .error e)
      ↔ (xi < 0 ∨ 1 < xi)) := by
  have hbad : (xi < 0 ∨ 1 < xi) → ∀ mycache : Option (lru_cache K),
      Costprobtail.constructor b xi get_alpha initial_cost mycache
        = .error "xi is not valid" := by
    intro h mycache
    unfold Costprobtail.constructor
    rw [if_pos (by rcases h with h | h; exact Or.inr h; exact Or.inl h)]
  have hgood : 0 ≤ xi → xi ≤ 1 →
      Costprobtail.constructor b xi get_alpha initial_cost (some store)
        = .ok { xi := xi, alpha := get_alpha, last_accepted_content_cost := initial_cost } := by
    intro h0 h1
    unfold Costprobtail.constructor
    rw [if_neg (by rintro (h | h); exact absurd h (not_lt.mpr h1); exact absurd h (not_lt.mpr h0))]
    simp
  refine ⟨fun h => hbad (Or.inl h), fun h => hbad (Or.inr h), hgood, ?_⟩
  constructor
  · rintro ⟨e, he⟩
    by_contra hin
    have h0 : 0 ≤ xi := not_lt.mp fun h => hin (Or.inl h)
    have h1 : xi ≤ 1 := not_lt.mp fun h => hin (Or.inr h)
    rw [hgood h0 h1] at he
    cases he
  · intro h
    exact ⟨_, hbad h (some store)⟩

/-- C14, witness: on the sample store, `xi = 0` and `xi = 1` construct a policy,
`xi = -1/10` and `xi = 11/10` signal the error, in a `SEVERE_DEBUG` build. -/
theorem constructor_error_iff_witness :
    ((0 : ℚ) ≤ 0 ∧ (0 : ℚ) ≤ 1 ∧
      Costprobtail.constructor debug_build (0 : ℚ) 1 (-1) (some (sample_full_store ℚ))
        = .ok { xi := 0, alpha := 1, last_accepted_content_cost := -1 }) ∧
    ((0 : ℚ) ≤ 1 ∧ (1 : ℚ) ≤ 1 ∧
      Costprobtail.constructor debug_build (1 : ℚ) 1 (-1) (some (sample_full_store ℚ))
        = .ok { xi := 1, alpha := 1, last_accepted_content_cost := -1 }) ∧
    ((-1 / 10 : ℚ) < 0 ∧
      Costprobtail.constructor debug_build (-1 / 10 : ℚ) 1 (-1) (some (sample_full_store ℚ))
        = .error "xi is not valid") ∧
    ((1 : ℚ) < 11 / 10 ∧
      Costprobtail.constructor debug_build (11 / 10 : ℚ) 1 (-1) (some (sample_full_store ℚ))
        = .error "xi is not valid") :=
  ⟨⟨by norm_num, by norm_num,
      (constructor_error_iff debug_build (0 : ℚ) 1 (-1) (sample_full_store ℚ)).2.2.1
        (by norm_num) (by norm_num)⟩,
    ⟨by norm_num, by norm_num,
      (constructor_error_iff debug_build (1 : ℚ) 1 (-1) (sample_full_store ℚ)).2.2.1
        (by norm_num) (by norm_num)⟩,
    ⟨by norm_num,
      (constructor_error_iff debug_build (-1 / 10 : ℚ) 1 (-1) (sample_full_store ℚ)).1
        (by norm_num) _⟩,
    ⟨by norm_num,
      (constructor_error_iff debug_build (11 / 10 : ℚ) 1 (-1) (sample_full_store ℚ)).2.1
        (by norm_num) _⟩⟩

/-! ## C15: the numeric suffix of the policy name in `base_cache::initialize` -/

/-- C15, the code at the failing input: with the policy name `fixabc` (suffix `abc`, on
which `atof` converts nothing and returns 0) `base_cache::initialize` signals no error and
leaves a `Fix` policy with ratio 0; so does `costawarexyz` with a `Costaware` policy.  Only
the empty suffix (`fix`, `costaware`) is refused. -/
theorem initialize_accepts_malformed_suffix :
    (( base_cache.initialize release_build (atof_without_number ℚ)
        { DS := "fixabc", C := 10, NC := 0, betweenness := 0,
          module_is_lru_cache := true }).toOption.map fun r => (r.2, r.1.cache_slots))
      = some (decision_policy_object.Fix 0, 10) ∧
    (( base_cache.initialize release_build (atof_without_number ℚ)
        { DS := "costawarexyz", C := 10, NC := 0, betweenness := 0,
          module_is_lru_cache := true }).toOption.map fun r => (r.2, r.1.cache_slots))
      = some (decision_policy_object.Costaware 0, 10) ∧
    (( base_cache.initialize release_build (atof_without_number ℚ)
        { DS := "fix", C := 10, NC := 0, betweenness := 0,
          module_is_lru_cache := true }).toOption.map fun r => (r.2, r.1.cache_slots))
      = none ∧
    (( base_cache.initialize release_build (atof_without_number ℚ)
        { DS := "costaware", C := 10, NC := 0, betweenness := 0,
          module_is_lru_cache := true }).toOption.map fun r => (r.2, r.1.cache_slots))
      = none := by
  refine ⟨?_, ?_, ?_, ?_⟩ <;> rfl

/-! ## C16: the representation check of `insert_into_cache` under `SEVERE_DEBUG` -/

/-- C16: in a `SEVERE_DEBUG` build, whenever the table holds, under the mask-cleared
identifier, a descriptor `stored` whose representation mask is greater than or equal to
that of the new descriptor `d`, `insert_into_cache` stops with the consistency error of
lines 195 to 203: the result is that error and no new cache, so lines 208 and 209 are not
reached and table and `occupied_slots` are those before the call.  When the table holds no
entry for the identifier this check does not signal: the call stores the entry, unless the
separate `check_representation_mask` of line 205 refuses `d`. -/
theorem insert_representation_check (b : Build) (hb : b.SEVERE_DEBUG = true)
    (c : base_cache) (chunk_id : chunk_t) (d stored : cache_item_descriptor) (s : Nat) :
    (c.cache.find (__srepresentation_mask chunk_id 0) = some (some stored) →
      __representation_mask stored.k ≥ __representation_mask d.k →
      c.insert_into_cache b chunk_id (some d) s = .error
        "Representation was already present, and you are trying to insert a lower representation") ∧
    (c.cache.find (__srepresentation_mask chunk_id 0) = none →
      c.insert_into_cache b chunk_id (some d) s =
        if b.check_representation_mask d.k then
          .ok { c.update_occupied_slots (int_of_unsigned (to_unsigned s)) with
                cache := c.cache.assign (__srepresentation_mask chunk_id 0) (some d) }
        else .error "check_representation_mask") := by
  constructor
  · intro hfind hge
    simp [base_cache.insert_into_cache, base_cache.insert_checks, base_cache.find_in_cache,
      hb, mask_cleared, hfind, hge]
  · intro hfind
    by_cases hck : b.check_representation_mask d.k = true
    · simp [base_cache.insert_into_cache, base_cache.insert_checks, base_cache.find_in_cache,
        hb, mask_cleared, hfind, hck, base_cache.update_occupied_slots]
    · simp [base_cache.insert_into_cache, base_cache.insert_checks, base_cache.find_in_cache,
        hb, mask_cleared, hfind, hck]

/-- C16, witness: the table holds `(1, 0)` with representation mask 2; inserting a
descriptor of mask 1 is refused, and on the empty table the insertion goes through. -/
theorem insert_representation_check_witness :
    debug_build.SEVERE_DEBUG = true ∧
    ({ base_cache.fresh 4 with
        occupied_slots := 1,
        cache := cache_map.empty.assign ⟨1, 0, 0⟩ (some ⟨⟨1, 0, 2⟩⟩) } : base_cache).cache.find
      (__srepresentation_mask ⟨1, 0, 1⟩ 0) = some (some ⟨⟨1, 0, 2⟩⟩) ∧
    __representation_mask (⟨⟨1, 0, 2⟩⟩ : cache_item_descriptor).k
      ≥ __representation_mask (⟨⟨1, 0, 1⟩⟩ : cache_item_descriptor).k ∧
    ({ base_cache.fresh 4 with
        occupied_slots := 1,
        cache := cache_map.empty.assign ⟨1, 0, 0⟩ (some ⟨⟨1, 0, 2⟩⟩) } :
        base_cache).insert_into_cache debug_build ⟨1, 0, 1⟩ (some ⟨⟨1, 0, 1⟩⟩) 1
      = .error
        "Representation was already present, and you are trying to insert a lower representation" ∧
    (base_cache.fresh 4).cache.find (__srepresentation_mask ⟨1, 0, 1⟩ 0) = none ∧
    (base_cache.fresh 4).insert_into_cache debug_build ⟨1, 0, 1⟩ (some ⟨⟨1, 0, 1⟩⟩) 1 =
      if debug_build.check_representation_mask (⟨⟨1, 0, 1⟩⟩ : cache_item_descriptor).k then
        .ok { (base_cache.fresh 4).update_occupied_slots (int_of_unsigned (to_unsigned 1)) with
              cache := (base_cache.fresh 4).cache.assign (__srepresentation_mask ⟨1, 0, 1⟩ 0)
                (some ⟨⟨1, 0, 1⟩⟩) }
      else .error "check_representation_mask" :=
  ⟨rfl, rfl, by decide,
    (insert_representation_check debug_build rfl _ ⟨1, 0, 1⟩ ⟨⟨1, 0, 1⟩⟩ ⟨⟨1, 0, 2⟩⟩ 1).1
      rfl (by decide),
    rfl,
    (insert_representation_check debug_build rfl (base_cache.fresh 4) ⟨1, 0, 1⟩ ⟨⟨1, 0, 1⟩⟩
      ⟨⟨1, 0, 1⟩⟩ 1).2 rfl⟩

/-! ## C17 to C19: one call of `two_cache::data_store` -/

theorem two_cache_data_store_inv {δ K : Type} (b : Build)
    (decisor : δ → ccn_data K → Except String (Bool × δ)) (c c1 : two_cache) (d d1 : δ)
    (data_msg : ccn_data K) (pos1 pos2 coin : Nat) (rv : Bool)
    (h : c.data_store b decisor d data_msg pos1 pos2 coin = .ok (rv, c1, d1)) :
    ∃ c2 c3 : base_cache,
      c.tobase_cache.data_store decisor d data_msg = .ok (rv, c2, d1) ∧
      c2.insert_into_cache b data_msg.get_chunk_id none 1 = .ok c3 ∧
      ((c.deq.length = to_unsigned c.get_size ∧
        ∃ e1 e2, c.deq[pos1]? = some e1 ∧ c.deq[pos2]? = some e2 ∧
          c1 = { tobase_cache :=
                   c3.remove_from_cache (two_cache.choose pos1 pos2 e1 e2 coin).1 1,
                 deq := c.deq.set (two_cache.choose pos1 pos2 e1 e2 coin).2
                   data_msg.get_chunk_id }) ∨
       (c.deq.length ≠ to_unsigned c.get_size ∧
        c1 = { tobase_cache := c3, deq := c.deq ++ [data_msg.get_chunk_id] })) := by
  by_cases hfull : c.deq.length = to_unsigned c.get_size
  · cases h1 : c.deq[pos1]? with
    | none =>
      exfalso
      unfold two_cache.data_store at h
      cases hds : c.tobase_cache.data_store decisor d data_msg with
      | error e => simp [hds] at h
      | ok r =>
        obtain ⟨rv0, c2, d2⟩ := r
        simp only [hds] at h
        split at h
        · cases h
        · cases hins : c2.insert_into_cache b data_msg.get_chunk_id none 1 with
          | error e => simp [hins] at h
          | ok c3 => simp [hins, hfull, h1] at h
    | some e1 =>
      cases h2 : c.deq[pos2]? with
      | none =>
        exfalso
        unfold two_cache.data_store at h
        cases hds : c.tobase_cache.data_store decisor d data_msg with
        | error e => simp [hds] at h
        | ok r =>
          obtain ⟨rv0, c2, d2⟩ := r
          simp only [hds] at h
          split at h
          · cases h
          · cases hins : c2.insert_into_cache b data_msg.get_chunk_id none 1 with
            | error e => simp [hins] at h
            | ok c3 => simp [hins, hfull, h1, h2] at h
      | some e2 =>
        obtain ⟨c2, c3, hds, hins, hc1⟩ :=
          two_cache_data_store_full_inv b decisor c c1 d d1 data_msg pos1 pos2 coin e1 e2 rv
            hfull h1 h2 h
        exact ⟨c2, c3, hds, hins, Or.inl ⟨hfull, e1, e2, rfl, rfl, hc1⟩⟩
  · unfold two_cache.data_store at h
    cases hds : c.tobase_cache.data_store decisor d data_msg with
    | error e => simp [hds] at h
    | ok r =>
      obtain ⟨rv0, c2, d2⟩ := r
      simp only [hds] at h
      split at h
      · cases h
      · cases hins : c2.insert_into_cache b data_msg.get_chunk_id none 1 with
        | error e => simp [hins] at h
        | ok c3 =>
          simp only [hins, beq_iff_eq, hfull, if_false, Except.ok.injEq, Prod.mk.injEq] at h
          obtain ⟨hrv, hc, hd⟩ := h
          subst hrv hd
          exact ⟨c2, c3, rfl, hins, Or.inr ⟨hfull, hc.symm⟩⟩

theorem two_cache_choose_cases (pos1 pos2 coin : Nat) (e1 e2 : chunk_t) :
    two_cache.choose pos1 pos2 e1 e2 coin = (e1, pos1) ∨
    two_cache.choose pos1 pos2 e1 e2 coin = (e2, pos2) := by
  unfold two_cache.choose
  simp only []
  split
  · exact Or.inr rfl
  · split
    · split
      · exact Or.inl rfl
      · exact Or.inr rfl
    · exact Or.inl rfl

/-- C17: on a full tracked sequence, for sampled positions `pos1`, `pos2` (holding `e1`,
`e2`) and every value `coin` of `intrand(2)`, after a completed `two_cache::data_store` the
sequence has the same length, holds the new identifier at the victim position, is
unchanged at every other position, and the table has no entry for the victim identifier
(the entry that stood at the victim position); when `e1` and `e2` have equal object rank
the victim position is `pos1` if `coin` is 0 and `pos2` otherwise.  In a build without
`SEVERE_DEBUG` the call completes whenever the decision policy answers. -/
theorem two_random_replacement {δ K : Type} (b : Build)
    (decisor : δ → ccn_data K → Except String (Bool × δ)) (c : two_cache) (d : δ)
    (data_msg : ccn_data K) (pos1 pos2 coin : Nat) (e1 e2 : chunk_t)
    (hfull : c.deq.length = to_unsigned c.get_size)
    (h1 : c.deq[pos1]? = some e1) (h2 : c.deq[pos2]? = some e2) :
    (∀ (rv : Bool) (c1 : two_cache) (d1 : δ),
      c.data_store b decisor d data_msg pos1 pos2 coin = .ok (rv, c1, d1) →
        c1.deq.length = c.deq.length ∧
        c1.deq[(two_cache.choose pos1 pos2 e1 e2 coin).2]? = some data_msg.get_chunk_id ∧
        c.deq[(two_cache.choose pos1 pos2 e1 e2 coin).2]?
          = some (two_cache.choose pos1 pos2 e1 e2 coin).1 ∧
        (∀ i, i ≠ (two_cache.choose pos1 pos2 e1 e2 coin).2 → c1.deq[i]? = c.deq[i]?) ∧
        c1.cache.find (__srepresentation_mask (two_cache.choose pos1 pos2 e1 e2 coin).1 0)
          = none ∧
        (__id e1 = __id e2 →
          (two_cache.choose pos1 pos2 e1 e2 coin).2 = if coin = 0 then pos1 else pos2)) ∧
    (b.SEVERE_DEBUG = false →
      ∀ (rv : Bool) (c2 : base_cache) (d1 : δ),
        c.tobase_cache.data_store decisor d data_msg = .ok (rv, c2, d1) →
        ∃ c1, c.data_store b decisor d data_msg pos1 pos2 coin = .ok (rv, c1, d1)) := by
  refine ⟨?_, fun hb rv c2 d1 hds =>
    two_cache_data_store_release b hb decisor c c2 d d1 data_msg pos1 pos2 coin e1 e2 rv
      hfull h1 h2 hds⟩
  intro rv c1 d1 h
  obtain ⟨c2, c3, _, _, hc1⟩ :=
    two_cache_data_store_full_inv b decisor c c1 d d1 data_msg pos1 pos2 coin e1 e2 rv
      hfull h1 h2 h
  subst hc1
  have hp1 : pos1 < c.deq.length := (List.getElem?_eq_some.mp h1).1
  have hp2 : pos2 < c.deq.length := (List.getElem?_eq_some.mp h2).1
  have hvictim : (two_cache.choose pos1 pos2 e1 e2 coin).2 < c.deq.length ∧
      c.deq[(two_cache.choose pos1 pos2 e1 e2 coin).2]?
        = some (two_cache.choose pos1 pos2 e1 e2 coin).1 := by
    rcases two_cache_choose_cases pos1 pos2 coin e1 e2 with hch | hch
    · rw [hch]; exact ⟨hp1, h1⟩
    · rw [hch]; exact ⟨hp2, h2⟩
  refine ⟨by simp, ?_, hvictim.2, ?_, ?_, ?_⟩
  · simp [List.getElem?_set, hvictim.1]
  · intro i hi
    simp [List.getElem?_set, Ne.symm hi]
  · simp [(remove_from_cache_occupied c3 _ 1).2.2, cache_map.find, cache_map.erase]
  · intro htie
    unfold two_cache.choose
    simp only [htie, gt_iff_lt, lt_self_iff_false, if_false, beq_self_eq_true, if_true,
      beq_iff_eq]
    split <;> rfl

/-- C17, witness: the ten entries with the entry at position 7 replaced by a second chunk
of rank 3, so that positions 2 and 7 tie; coin 1 picks position 7. -/
theorem two_random_replacement_witness :
    ({ ten_cache with
        cache := table_of (ten_entries.set 7 ⟨3, 1, 0⟩), deq := ten_entries.set 7 ⟨3, 1, 0⟩ } : two_cache).deq.length
      = to_unsigned ({ ten_cache with
        cache := table_of (ten_entries.set 7 ⟨3, 1, 0⟩), deq := ten_entries.set 7 ⟨3, 1, 0⟩ } : two_cache).get_size ∧
    ({ ten_cache with
        cache := table_of (ten_entries.set 7 ⟨3, 1, 0⟩), deq := ten_entries.set 7 ⟨3, 1, 0⟩ } : two_cache).deq[2]?
      = some ⟨3, 0, 0⟩ ∧
    ({ ten_cache with
        cache := table_of (ten_entries.set 7 ⟨3, 1, 0⟩), deq := ten_entries.set 7 ⟨3, 1, 0⟩ } : two_cache).deq[7]?
      = some ⟨3, 1, 0⟩ ∧
    (({ ten_cache with
        cache := table_of (ten_entries.set 7 ⟨3, 1, 0⟩), deq := ten_entries.set 7 ⟨3, 1, 0⟩ } : two_cache).data_store
        release_build always_decisor () ({ chunk := ⟨11, 0, 0⟩, cost := 0 } : ccn_data ℚ)
        2 7 1).toOption.map (fun r => (r.2.1.deq[7]?, r.2.1.deq[2]?, r.2.1.cache ⟨3, 1, 0⟩, r.2.1.cache ⟨3, 0, 0⟩))
      = some (some ⟨11, 0, 0⟩, some ⟨3, 0, 0⟩, none, some none) ∧
    ∀ (rv : Bool) (c1 : two_cache) (d1 : Unit),
      ({ ten_cache with
        cache := table_of (ten_entries.set 7 ⟨3, 1, 0⟩), deq := ten_entries.set 7 ⟨3, 1, 0⟩ } : two_cache).data_store
          release_build always_decisor () ({ chunk := ⟨11, 0, 0⟩, cost := 0 } : ccn_data ℚ)
          2 7 1 = .ok (rv, c1, d1) →
        c1.deq.length
          = ({ ten_cache with
        cache := table_of (ten_entries.set 7 ⟨3, 1, 0⟩), deq := ten_entries.set 7 ⟨3, 1, 0⟩ } : two_cache).deq.length :=
  ⟨by decide, by decide, by decide, by rfl,
    fun rv c1 d1 h =>
      ((two_random_replacement release_build always_decisor
        { ten_cache with
        cache := table_of (ten_entries.set 7 ⟨3, 1, 0⟩), deq := ten_entries.set 7 ⟨3, 1, 0⟩ } ()
        { chunk := ⟨11, 0, 0⟩, cost := 0 } 2 7 1 ⟨3, 0, 0⟩ ⟨3, 1, 0⟩
        (by decide) (by decide) (by decide)).1 rv c1 d1 h).1⟩

/-- C18, the code at the failing input: the full cache tracks ranks `1..10`, the incoming
unit is the resident chunk of rank 3 (position 2).  With both draws at position 2, and
with draws `(2, 7)` (ranks 3 and 8, the lower rank is the victim), the victim is the
incoming identifier itself: on return the sequence still holds it at position 2, but the
table, which bound it before the call, has no entry for it.  With draws `(5, 7)` the
victim is another entry and the identifier is registered. -/
theorem data_store_unregisters_resident_victim :
    ten_cache.cache.find ⟨3, 0, 0⟩ = some none ∧
    ((ten_cache.data_store release_build always_decisor ()
        ({ chunk := ⟨3, 0, 0⟩, cost := 0 } : ccn_data ℚ) 2 2 0).toOption.map
      fun r => (r.1, r.2.1.deq[2]?, r.2.1.cache.find ⟨3, 0, 0⟩, r.2.1.occupied_slots))
      = some (true, some ⟨3, 0, 0⟩, none, 10) ∧
    ((ten_cache.data_store release_build always_decisor ()
        ({ chunk := ⟨3, 0, 0⟩, cost := 0 } : ccn_data ℚ) 2 7 0).toOption.map
      fun r => (r.1, r.2.1.deq[2]?, r.2.1.cache.find ⟨3, 0, 0⟩, r.2.1.occupied_slots))
      = some (true, some ⟨3, 0, 0⟩, none, 10) ∧
    ((ten_cache.data_store release_build always_decisor ()
        ({ chunk := ⟨3, 0, 0⟩, cost := 0 } : ccn_data ℚ) 5 7 0).toOption.map
      fun r => (r.1, r.2.1.deq[2]?, r.2.1.cache.find ⟨3, 0, 0⟩, r.2.1.occupied_slots))
      = some (true, some ⟨3, 0, 0⟩, some none, 10) := by
  refine ⟨?_, ?_, ?_, ?_⟩ <;> rfl

/-- C19: when the tracked sequence is shorter than the capacity, a completed
`two_cache::data_store` leaves the old sequence with the new identifier appended at the
end and removes no table entry; the outcome is the same for all values of the three
`intrand` draws, none of which is made.  In a build without `SEVERE_DEBUG` the call
completes whenever the decision policy answers. -/
theorem two_cache_append {δ K : Type} (b : Build)
    (decisor : δ → ccn_data K → Except String (Bool × δ)) (c : two_cache) (d : δ)
    (data_msg : ccn_data K) (pos1 pos2 coin : Nat)
    (hshort : c.deq.length < c.get_size) (hcap : c.get_size < WORD) :
    (∀ (rv : Bool) (c1 : two_cache) (d1 : δ),
      c.data_store b decisor d data_msg pos1 pos2 coin = .ok (rv, c1, d1) →
        c1.deq = c.deq ++ [data_msg.get_chunk_id] ∧
        (∀ key, c.cache.find key ≠ none → c1.cache.find key ≠ none)) ∧
    (∀ p1 p2 q : Nat,
      c.data_store b decisor d data_msg p1 p2 q
        = c.data_store b decisor d data_msg pos1 pos2 coin) ∧
    (b.SEVERE_DEBUG = false →
      ∀ (rv : Bool) (c2 : base_cache) (d1 : δ),
        c.tobase_cache.data_store decisor d data_msg = .ok (rv, c2, d1) →
        ∃ c1, c.data_store b decisor d data_msg pos1 pos2 coin = .ok (rv, c1, d1)) := by
  have hne : c.deq.length ≠ to_unsigned c.get_size := by
    rw [to_unsigned, Nat.mod_eq_of_lt hcap]
    exact Nat.ne_of_lt hshort
  have hbeq : (c.deq.length == to_unsigned c.get_size) = false := by
    simpa using hne
  refine ⟨?_, ?_, ?_⟩
  · intro rv c1 d1 h
    obtain ⟨c2, c3, hds, hins, hc1⟩ :=
      two_cache_data_store_inv b decisor c c1 d d1 data_msg pos1 pos2 coin rv h
    rcases hc1 with ⟨hfull, _⟩ | ⟨_, hc1⟩
    · exact absurd hfull hne
    · subst hc1
      refine ⟨rfl, ?_⟩
      intro key hkey
      have hc2 : c2.cache = c.cache := by
        rcases data_store_effect decisor c.tobase_cache c2 d d1 data_msg rv hds with
          ⟨_, hc⟩ | ⟨_, hc⟩ <;> rw [hc]
      show c3.cache.find key ≠ none
      rw [(insert_into_cache_occupied b c2 c3 _ none 1 hins).2.2, hc2]
      simp only [cache_map.find, cache_map.assign]
      split
      · simp
      · exact hkey
  · intro p1 p2 q
    unfold two_cache.data_store
    simp only [hbeq, Bool.false_eq_true, if_false]
  · intro hb rv c2 d1 hds
    unfold two_cache.data_store
    simp [hds, hb, insert_into_cache_release b hb, hbeq]

/-- C19, witness: a fresh cache of capacity 3 and one incoming unit. -/
theorem two_cache_append_witness :
    (two_cache.fresh 3).deq.length < (two_cache.fresh 3).get_size ∧
    (two_cache.fresh 3).get_size < WORD ∧
    ((two_cache.fresh 3).data_store release_build always_decisor ()
        ({ chunk := ⟨4, 0, 0⟩, cost := 0 } : ccn_data ℚ) 0 0 0).toOption.map
      (fun r => (r.2.1.deq, r.2.1.cache.find ⟨4, 0, 0⟩, r.2.1.occupied_slots))
      = some ([⟨4, 0, 0⟩], some none, 1) ∧
    ∀ p1 p2 q : Nat,
      (two_cache.fresh 3).data_store release_build always_decisor ()
          ({ chunk := ⟨4, 0, 0⟩, cost := 0 } : ccn_data ℚ) p1 p2 q
        = (two_cache.fresh 3).data_store release_build always_decisor ()
          ({ chunk := ⟨4, 0, 0⟩, cost := 0 } : ccn_data ℚ) 0 0 0 :=
  ⟨by decide, by decide, by rfl,
    (two_cache_append release_build always_decisor (two_cache.fresh 3) ()
      { chunk := ⟨4, 0, 0⟩, cost := 0 } 0 0 0 (by decide) (by decide)).2.1⟩

/-! ## C20: occupancy and sequence length of `two_cache` -/

theorem two_cache_data_store_occupancy {δ K : Type} (b : Build)
    (decisor : δ → ccn_data K → Except String (Bool × δ)) (c c1 : two_cache) (d d1 : δ)
    (data_msg : ccn_data K) (pos1 pos2 coin : Nat) (rv : Bool)
    (hocc : c.occupied_slots = c.deq.length)
    (hlen : c.deq.length ≤ to_unsigned c.cache_slots)
    (h : c.data_store b decisor d data_msg pos1 pos2 coin = .ok (rv, c1, d1)) :
    c1.occupied_slots = c1.deq.length ∧ c1.deq.length ≤ to_unsigned c1.cache_slots ∧
      c1.cache_slots = c.cache_slots := by
  obtain ⟨c2, c3, hds, hins, hc1⟩ :=
    two_cache_data_store_inv b decisor c c1 d d1 data_msg pos1 pos2 coin rv h
  have hc2 : c2.occupied_slots = c.occupied_slots ∧ c2.cache_slots = c.cache_slots := by
    rcases data_store_effect decisor c.tobase_cache c2 d d1 data_msg rv hds with
      ⟨_, hc⟩ | ⟨_, hc⟩ <;> rw [hc] <;> exact ⟨rfl, rfl⟩
  obtain ⟨h3occ, h3slots, _⟩ := insert_into_cache_occupied b c2 c3 _ none 1 hins
  have hW : to_unsigned c.cache_slots < WORD := Nat.mod_lt _ (by simp [WORD])
  rcases hc1 with ⟨_, e1, e2, _, _, hc1⟩ | ⟨hne, hc1⟩
  · subst hc1
    obtain ⟨hrocc, hrslots, _⟩ :=
      remove_from_cache_occupied c3 (two_cache.choose pos1 pos2 e1 e2 coin).1 1
    refine ⟨?_, ?_, ?_⟩
    · show (c3.remove_from_cache _ 1).occupied_slots = (c.deq.set _ _).length
      rw [hrocc, h3occ, hc2.1, hocc, List.length_set]
      simp only [WORD] at hW ⊢
      omega
    · show (c.deq.set _ _).length ≤ to_unsigned (c3.remove_from_cache _ 1).cache_slots
      rw [hrslots, h3slots, hc2.2, List.length_set]
      exact hlen
    · show (c3.remove_from_cache _ 1).cache_slots = c.cache_slots
      rw [hrslots, h3slots, hc2.2]
  · subst hc1
    have hlt : c.deq.length < to_unsigned c.cache_slots :=
      Nat.lt_of_le_of_ne hlen hne
    refine ⟨?_, ?_, ?_⟩
    · show c3.occupied_slots = (c.deq ++ [data_msg.get_chunk_id]).length
      rw [h3occ, hc2.1, hocc, List.length_append, List.length_singleton]
      exact Nat.mod_eq_of_lt (by omega)
    · show (c.deq ++ [data_msg.get_chunk_id]).length ≤ to_unsigned c3.cache_slots
      rw [h3slots, hc2.2, List.length_append, List.length_singleton]
      exact hlt
    · show c3.cache_slots = c.cache_slots
      rw [h3slots, hc2.2]

theorem two_cache_data_store_all_occupancy {δ K : Type} (b : Build)
    (decisor : δ → ccn_data K → Except String (Bool × δ)) (calls : List (two_cache_call K)) :
    ∀ (c c1 : two_cache) (d d1 : δ) (n : Nat),
      c.occupied_slots = c.deq.length → c.deq.length ≤ to_unsigned c.cache_slots →
      c.data_store_all b decisor d (calls.take n) = .ok (c1, d1) →
      c1.occupied_slots = c1.deq.length ∧ c1.deq.length ≤ to_unsigned c1.cache_slots ∧
        c1.cache_slots = c.cache_slots := by
  induction calls with
  | nil =>
    intro c c1 d d1 n hocc hlen h
    simp only [List.take_nil, two_cache.data_store_all, Except.ok.injEq, Prod.mk.injEq] at h
    obtain ⟨hc, _⟩ := h
    subst hc
    exact ⟨hocc, hlen, rfl⟩
  | cons call rest ih =>
    intro c c1 d d1 n hocc hlen h
    cases n with
    | zero =>
      simp only [List.take_zero, two_cache.data_store_all, Except.ok.injEq, Prod.mk.injEq] at h
      obtain ⟨hc, _⟩ := h
      subst hc
      exact ⟨hocc, hlen, rfl⟩
    | succ n =>
      simp only [List.take_succ_cons, two_cache.data_store_all] at h
      cases hstep : c.data_store b decisor d call.data_msg call.pos1 call.pos2 call.coin with
      | error e => simp [hstep] at h
      | ok r =>
        obtain ⟨rv, c2, d2⟩ := r
        simp only [hstep] at h
        obtain ⟨h2occ, h2len, h2slots⟩ :=
          two_cache_data_store_occupancy b decisor c c2 d d2 call.data_msg call.pos1 call.pos2
            call.coin rv hocc hlen hstep
        obtain ⟨h1occ, h1len, h1slots⟩ := ih c2 c1 d2 d1 n h2occ h2len h
        exact ⟨h1occ, h1len, h1slots.trans h2slots⟩

theorem two_cache_data_store_all_returns {δ K : Type} (b : Build)
    (hb : b.SEVERE_DEBUG = false) (decisor : δ → ccn_data K → Except String (Bool × δ))
    (hdec : ∀ d m, ∃ r, decisor d m = .ok r) (slots : Nat) (hslots : slots < WORD)
    (calls : List (two_cache_call K)) :
    ∀ (c : two_cache) (d : δ),
      c.cache_slots = slots → c.occupied_slots = c.deq.length →
      c.deq.length ≤ to_unsigned c.cache_slots →
      (∀ call ∈ calls, call.pos1 < slots ∧ call.pos2 < slots) →
      ∃ r, c.data_store_all b decisor d calls = .ok r := by
  induction calls with
  | nil => intro c d _ _ _ _; exact ⟨(c, d), rfl⟩
  | cons call rest ih =>
    intro c d hcs hocc hlen hdraws
    have hbase : ∃ rv c2 d1,
        c.tobase_cache.data_store decisor d call.data_msg = .ok (rv, c2, d1) := by
      obtain ⟨⟨ans, d1⟩, hans⟩ := hdec d call.data_msg
      unfold base_cache.data_store
      by_cases hpos : c.cache_slots > 0
      · cases ans with
        | true =>
          exact ⟨true, { c.tobase_cache with decision_yes := to_unsigned (c.decision_yes + 1) },
            d1, by simp [hpos, hans]⟩
        | false =>
          exact ⟨false, { c.tobase_cache with decision_no := to_unsigned (c.decision_no + 1) },
            d1, by simp [hpos, hans]⟩
      · exact ⟨false, { c.tobase_cache with decision_no := to_unsigned (c.decision_no + 1) },
          d, by simp [hpos]⟩
    obtain ⟨rv, c2, d1, hds⟩ := hbase
    have hstep : ∃ c1,
        c.data_store b decisor d call.data_msg call.pos1 call.pos2 call.coin
          = .ok (rv, c1, d1) := by
      by_cases hfull : c.deq.length = to_unsigned c.get_size
      · have hsz : to_unsigned c.get_size = slots := by
          rw [base_cache.get_size, hcs, to_unsigned, Nat.mod_eq_of_lt hslots]
        have hp := hdraws call (List.mem_cons_self _ _)
        have hp1 : call.pos1 < c.deq.length := by rw [hfull, hsz]; exact hp.1
        have hp2 : call.pos2 < c.deq.length := by rw [hfull, hsz]; exact hp.2
        exact two_cache_data_store_release b hb decisor c c2 d d1 call.data_msg call.pos1
          call.pos2 call.coin (c.deq[call.pos1]) (c.deq[call.pos2]) rv hfull
          (List.getElem?_eq_getElem hp1) (List.getElem?_eq_getElem hp2) hds
      · have hbeq : (c.deq.length == to_unsigned c.get_size) = false := by
          simpa using hfull
        unfold two_cache.data_store
        simp [hds, hb, insert_into_cache_release b hb, hbeq]
    obtain ⟨c1, hstep⟩ := hstep
    obtain ⟨h1occ, h1len, h1slots⟩ :=
      two_cache_data_store_occupancy b decisor c c1 d d1 call.data_msg call.pos1 call.pos2
        call.coin rv hocc hlen hstep
    obtain ⟨r, hr⟩ := ih c1 d1 (h1slots.trans hcs) h1occ h1len
      (fun x hx => hdraws x (List.mem_cons_of_mem _ hx))
    exact ⟨r, by simp [two_cache.data_store_all, hstep, hr]⟩

/-- C20: for a `two_cache` of capacity `slots` that starts with an empty sequence and
`occupied_slots = 0`, after every completed call of a sequence of `two_cache::data_store`
calls `occupied_slots` equals the length of the tracked sequence and that length is at most
the capacity, whatever the identifiers (repeated ones included) and the draws.  In a build
without `SEVERE_DEBUG`, with a capacity that is an `unsigned` value, a policy that always
answers and draws inside the capacity, every call of the sequence completes. -/
theorem two_cache_occupancy {δ K : Type} (b : Build)
    (decisor : δ → ccn_data K → Except String (Bool × δ)) (slots : Nat) (d : δ)
    (calls : List (two_cache_call K)) :
    (∀ (n : Nat) (c1 : two_cache) (d1 : δ),
      (two_cache.fresh slots).data_store_all b decisor d (calls.take n) = .ok (c1, d1) →
        c1.occupied_slots = c1.deq.length ∧ c1.deq.length ≤ c1.cache_slots ∧
        c1.cache_slots = slots) ∧
    (b.SEVERE_DEBUG = false → slots < WORD → (∀ d m, ∃ r, decisor d m = .ok r) →
      (∀ call ∈ calls, call.pos1 < slots ∧ call.pos2 < slots) →
      ∃ r, (two_cache.fresh slots).data_store_all b decisor d calls = .ok r) := by
  constructor
  · intro n c1 d1 h
    obtain ⟨hocc, hlen, hs⟩ :=
      two_cache_data_store_all_occupancy b decisor calls (two_cache.fresh slots) c1 d d1 n
        rfl (Nat.zero_le _) h
    exact ⟨hocc, le_trans hlen (Nat.mod_le _ _), hs⟩
  · intro hb hslots hdec hdraws
    exact two_cache_data_store_all_returns b hb decisor hdec slots hslots calls
      (two_cache.fresh slots) d rfl rfl (Nat.zero_le _) hdraws

/-- C20, witness: capacity 2 and four units, the third and fourth arriving on a full
sequence; the third repeats the first identifier and evicts it. -/
theorem two_cache_occupancy_witness :
    ((two_cache.fresh 2).data_store_all release_build always_decisor ()
        [ { data_msg := ({ chunk := ⟨5, 0, 0⟩, cost := 0 } : ccn_data ℚ),
            pos1 := 0, pos2 := 0, coin := 0 },
          { data_msg := { chunk := ⟨6, 0, 0⟩, cost := 0 }, pos1 := 0, pos2 := 0, coin := 0 },
          { data_msg := { chunk := ⟨5, 0, 0⟩, cost := 0 }, pos1 := 0, pos2 := 1, coin := 0 },
          { data_msg := { chunk := ⟨7, 0, 0⟩, cost := 0 }, pos1 := 1, pos2 := 1, coin := 1 }
        ]).toOption.map (fun r => (r.1.occupied_slots, r.1.deq, r.1.cache_slots))
      = some (2, [⟨5, 0, 0⟩, ⟨7, 0, 0⟩], 2) ∧
    ∀ (n : Nat) (c1 : two_cache) (d1 : Unit),
      (two_cache.fresh 2).data_store_all release_build always_decisor ()
          (([ { data_msg := ({ chunk := ⟨5, 0, 0⟩, cost := 0 } : ccn_data ℚ),
                pos1 := 0, pos2 := 0, coin := 0 },
              { data_msg := { chunk := ⟨6, 0, 0⟩, cost := 0 }, pos1 := 0, pos2 := 0, coin := 0 },
              { data_msg := { chunk := ⟨5, 0, 0⟩, cost := 0 }, pos1 := 0, pos2 := 1, coin := 0 },
              { data_msg := { chunk := ⟨7, 0, 0⟩, cost := 0 }, pos1 := 1, pos2 := 1, coin := 1 }
            ] : List (two_cache_call ℚ)).take n) = .ok (c1, d1) →
        c1.occupied_slots = c1.deq.length ∧ c1.deq.length ≤ c1.cache_slots ∧
        c1.cache_slots = 2 :=
  ⟨by rfl, (two_cache_occupancy release_build always_decisor 2 () _).1⟩

/-! ## C21: the update of `two_cache::data_store` and the decision -/

theorem insert_into_cache_ok_eq (b : Build) (c c1 : base_cache) (chunk_id : chunk_t)
    (descr : Option cache_item_descriptor) (s : Nat)
    (h : c.insert_into_cache b chunk_id descr s = .ok c1) :
    c1 = { c.update_occupied_slots (int_of_unsigned (to_unsigned s)) with
           cache := c.cache.assign (__srepresentation_mask chunk_id 0) descr } := by
  unfold base_cache.insert_into_cache at h
  cases hck : c.insert_checks b (__srepresentation_mask chunk_id 0) descr with
  | error e => simp [hck] at h
  | ok u =>
    simp only [hck, Except.ok.injEq] at h
    subst h
    rfl

theorem insert_checks_counters (b : Build) (c : base_cache) (y n : Nat) (chunk_id : chunk_t)
    (descr : Option cache_item_descriptor) :
    base_cache.insert_checks b { c with decision_yes := y, decision_no := n } chunk_id descr
      = c.insert_checks b chunk_id descr := rfl

theorem data_store_insert_checks {δ M : Type} (b : Build)
    (decisor : δ → M → Except String (Bool × δ)) (c c2 : base_cache) (d d1 : δ)
    (data_msg : M) (rv : Bool) (chunk_id : chunk_t) (descr : Option cache_item_descriptor)
    (h : c.data_store decisor d data_msg = .ok (rv, c2, d1)) :
    c2.insert_checks b chunk_id descr = c.insert_checks b chunk_id descr := by
  rcases data_store_effect decisor c c2 d d1 data_msg rv h with ⟨_, hc⟩ | ⟨_, hc⟩ <;>
    rw [hc] <;> rfl

theorem two_cache_data_store_completes {δ δ2 K : Type} (b : Build)
    (decisor : δ → ccn_data K → Except String (Bool × δ))
    (decisor2 : δ2 → ccn_data K → Except String (Bool × δ2))
    (c c1 : two_cache) (d d1 : δ) (d2 e2 : δ2) (data_msg : ccn_data K)
    (pos1 pos2 coin : Nat) (rv rv2 : Bool) (b2 : base_cache)
    (h : c.data_store b decisor d data_msg pos1 pos2 coin = .ok (rv, c1, d1))
    (hds2 : c.tobase_cache.data_store decisor2 d2 data_msg = .ok (rv2, b2, e2)) :
    ∃ c3, c.data_store b decisor2 d2 data_msg pos1 pos2 coin = .ok (rv2, c3, e2) := by
  unfold two_cache.data_store at h ⊢
  cases hds : c.tobase_cache.data_store decisor d data_msg with
  | error e => simp [hds] at h
  | ok r =>
    obtain ⟨rv0, a2, a1⟩ := r
    simp only [hds] at h
    simp only [hds2]
    have hck : b2.insert_checks b (__srepresentation_mask data_msg.get_chunk_id 0) none
        = a2.insert_checks b (__srepresentation_mask data_msg.get_chunk_id 0) none := by
      rw [data_store_insert_checks b decisor2 c.tobase_cache b2 d2 e2 data_msg rv2 _ _ hds2,
        data_store_insert_checks b decisor c.tobase_cache a2 d a1 data_msg rv0 _ _ hds]
    split at h
    · cases h
    · rename_i hg
      rw [if_neg hg]
      unfold base_cache.insert_into_cache at h ⊢
      simp only [hck]
      cases hchecks : a2.insert_checks b (__srepresentation_mask data_msg.get_chunk_id 0) none with
      | error e => simp [hchecks] at h
      | ok u =>
        simp only [hchecks] at h ⊢
        by_cases hfull : c.deq.length = to_unsigned c.get_size
        · simp only [hfull, beq_self_eq_true, if_true] at h ⊢
          cases h1 : c.deq[pos1]? with
          | none => simp [h1] at h
          | some x1 =>
            cases h2 : c.deq[pos2]? with
            | none => simp [h1, h2] at h
            | some x2 => exact ⟨_, rfl⟩
        · have hbeq : (c.deq.length == to_unsigned c.get_size) = false := by
            simpa using hfull
          simp only [hbeq, Bool.false_eq_true, if_false]
          exact ⟨_, rfl⟩

/-- C21: for the same prior state, unit and draws, two completed runs of
`two_cache::data_store`, one in which `base_cache::data_store` returned `rv` and one in
which it returned `rv2` (any two policies), end with the same table, the same
`occupied_slots` and the same tracked sequence: the caches are equal once the two decision
counters are set aside.  The decision shows in the returned value and in the counters only
(the counter of the decision taken is incremented).  The run with the other decision
completes whenever the first does and the other policy answers. -/
theorem two_cache_update_independent_of_decision {δ δ2 K : Type} (b : Build)
    (decisor : δ → ccn_data K → Except String (Bool × δ))
    (decisor2 : δ2 → ccn_data K → Except String (Bool × δ2))
    (c c1 : two_cache) (d d1 : δ) (d2 : δ2) (data_msg : ccn_data K)
    (pos1 pos2 coin : Nat) (rv : Bool)
    (h : c.data_store b decisor d data_msg pos1 pos2 coin = .ok (rv, c1, d1)) :
    (∀ (rv2 : Bool) (c3 : two_cache) (e2 : δ2),
      c.data_store b decisor2 d2 data_msg pos1 pos2 coin = .ok (rv2, c3, e2) →
        c1.cache = c3.cache ∧ c1.occupied_slots = c3.occupied_slots ∧ c1.deq = c3.deq ∧
        { c1 with decision_yes := c3.decision_yes, decision_no := c3.decision_no } = c3) ∧
    c1.decision_yes = (if rv then to_unsigned (c.decision_yes + 1) else c.decision_yes) ∧
    c1.decision_no = (if rv then c.decision_no else to_unsigned (c.decision_no + 1)) ∧
    (∀ (rv2 : Bool) (b2 : base_cache) (e2 : δ2),
      c.tobase_cache.data_store decisor2 d2 data_msg = .ok (rv2, b2, e2) →
      ∃ c3, c.data_store b decisor2 d2 data_msg pos1 pos2 coin = .ok (rv2, c3, e2)) := by
  obtain ⟨a2, a3, hds, hins, hc1⟩ :=
    two_cache_data_store_inv b decisor c c1 d d1 data_msg pos1 pos2 coin rv h
  have ha3 := insert_into_cache_ok_eq b a2 a3 _ none 1 hins
  have ha2 := data_store_effect decisor c.tobase_cache a2 d d1 data_msg rv hds
  refine ⟨?_, ?_, ?_, fun rv2 b2 e2 hds2 =>
    two_cache_data_store_completes b decisor decisor2 c c1 d d1 d2 e2 data_msg pos1 pos2 coin
      rv rv2 b2 h hds2⟩
  · intro rv2 c3 e2 h2
    obtain ⟨b2, b3, hds2, hins2, hc3⟩ :=
      two_cache_data_store_inv b decisor2 c c3 d2 e2 data_msg pos1 pos2 coin rv2 h2
    have hb3 := insert_into_cache_ok_eq b b2 b3 _ none 1 hins2
    have hb2 := data_store_effect decisor2 c.tobase_cache b2 d2 e2 data_msg rv2 hds2
    rcases hc1 with ⟨hfull, x1, x2, hx1, hx2, hc1⟩ | ⟨hne, hc1⟩
    · rcases hc3 with ⟨_, y1, y2, hy1, hy2, hc3⟩ | ⟨hne, _⟩
      · rw [hx1] at hy1
        rw [hx2] at hy2
        cases hy1
        cases hy2
        subst hc1 hc3 ha3 hb3
        rcases ha2 with ⟨_, ha2⟩ | ⟨_, ha2⟩ <;> rcases hb2 with ⟨_, hb2⟩ | ⟨_, hb2⟩ <;>
          subst ha2 hb2 <;> exact ⟨rfl, rfl, rfl, rfl⟩
      · exact absurd hfull hne
    · rcases hc3 with ⟨hfull, _⟩ | ⟨_, hc3⟩
      · exact absurd hfull hne
      · subst hc1 hc3 ha3 hb3
        rcases ha2 with ⟨_, ha2⟩ | ⟨_, ha2⟩ <;> rcases hb2 with ⟨_, hb2⟩ | ⟨_, hb2⟩ <;>
          subst ha2 hb2 <;> exact ⟨rfl, rfl, rfl, rfl⟩
  · rcases hc1 with ⟨_, x1, x2, _, _, hc1⟩ | ⟨_, hc1⟩ <;> subst hc1 ha3 <;>
      rcases ha2 with ⟨hrv, ha2⟩ | ⟨hrv, ha2⟩ <;> subst ha2 hrv <;> rfl
  · rcases hc1 with ⟨_, x1, x2, _, _, hc1⟩ | ⟨_, hc1⟩ <;> subst hc1 ha3 <;>
      rcases ha2 with ⟨hrv, ha2⟩ | ⟨hrv, ha2⟩ <;> subst ha2 hrv <;> rfl

/-- C21, witness: the full cache of ten entries, a unit of rank 11, draws `(2, 7)`; once
with the policy that stores everything, once with the policy that stores nothing. -/
theorem two_cache_update_independent_of_decision_witness :
    ((ten_cache.data_store release_build always_decisor ()
        ({ chunk := ⟨11, 0, 0⟩, cost := 0 } : ccn_data ℚ) 2 7 0).toOption.map
      fun r => (r.1, r.2.1.decision_yes, r.2.1.decision_no, r.2.1.deq[2]?,
        r.2.1.cache.find ⟨11, 0, 0⟩, r.2.1.occupied_slots))
      = some (true, 1, 0, some ⟨11, 0, 0⟩, some none, 10) ∧
    ((ten_cache.data_store release_build never_decisor ()
        ({ chunk := ⟨11, 0, 0⟩, cost := 0 } : ccn_data ℚ) 2 7 0).toOption.map
      fun r => (r.1, r.2.1.decision_yes, r.2.1.decision_no, r.2.1.deq[2]?,
        r.2.1.cache.find ⟨11, 0, 0⟩, r.2.1.occupied_slots))
      = some (false, 0, 1, some ⟨11, 0, 0⟩, some none, 10) ∧
    ∃ c1 : two_cache,
      ten_cache.data_store release_build always_decisor ()
          ({ chunk := ⟨11, 0, 0⟩, cost := 0 } : ccn_data ℚ) 2 7 0 = .ok (true, c1, ()) ∧
      ∀ (rv2 : Bool) (c3 : two_cache) (e2 : Unit),
        ten_cache.data_store release_build never_decisor ()
            ({ chunk := ⟨11, 0, 0⟩, cost := 0 } : ccn_data ℚ) 2 7 0 = .ok (rv2, c3, e2) →
          c1.cache = c3.cache ∧ c1.occupied_slots = c3.occupied_slots ∧ c1.deq = c3.deq ∧
          { c1 with decision_yes := c3.decision_yes, decision_no := c3.decision_no } = c3 :=
  ⟨by rfl, by rfl, _, rfl,
    (two_cache_update_independent_of_decision release_build always_decisor never_decisor
      ten_cache _ () () () { chunk := ⟨11, 0, 0⟩, cost := 0 } 2 7 0 true rfl).1⟩

/-! ## C22: `base_cache::data_store` at capacity 0, and one counter per call -/

/-- C22, counterexample: on a cache of capacity 0 whose counter `decision_no` holds
`2 ^ 32 - 1` (set by `set_decision_no`), `base_cache::data_store` returns false and leaves
`decision_no` at 0: the 32 bit increment wraps, the counter is not its old value plus 1. -/
theorem data_store_increment_counterexample :
    ((base_cache.fresh 0).set_decision_no 4294967295).decision_no = 4294967295 ∧
    ((((base_cache.fresh 0).set_decision_no 4294967295).data_store always_decisor ()
        ({ chunk := ⟨1, 0, 0⟩, cost := 0 } : ccn_data ℚ)).toOption.map
      fun r => (r.1, r.2.1.decision_no, r.2.1.decision_yes))
      = some (false, 0, 0) := by
  constructor <;> rfl

/-- C22, amended: when `cache_slots` is 0, `base_cache::data_store` returns false for every
unit without consulting the decision policy (the result is the same for every policy,
whatever it would draw or signal, and the state of the policy comes back as it was), adds 1
modulo `2 ^ 32` to `decision_no` and leaves every other member, `decision_yes`, `hit` and
`miss` among them, unchanged.  For every capacity, a completed call adds 1 modulo `2 ^ 32`
to exactly one of `decision_yes` (when it returns true) and `decision_no` (when it returns
false) and leaves the rest unchanged; the addition is exact while the counter is below
`2 ^ 32 - 1`. -/
theorem data_store_counts_one_decision {δ M : Type}
    (decisor : δ → M → Except String (Bool × δ)) (c : base_cache) (d : δ) (data_msg : M) :
    (c.cache_slots = 0 →
      c.data_store decisor d data_msg
        = .ok (false, { c with decision_no := (c.decision_no + 1) % WORD }, d) ∧
      ∀ decisor2 : δ → M → Except String (Bool × δ),
        c.data_store decisor2 d data_msg = c.data_store decisor d data_msg) ∧
    (∀ (rv : Bool) (c1 : base_cache) (d1 : δ),
      c.data_store decisor d data_msg = .ok (rv, c1, d1) →
        ((rv = true ∧ c1 = { c with decision_yes := (c.decision_yes + 1) % WORD }) ∨
         (rv = false ∧ c1 = { c with decision_no := (c.decision_no + 1) % WORD })) ∧
        c1.hit = c.hit ∧ c1.miss = c.miss ∧
        (c.decision_yes + 1 < WORD → c.decision_no + 1 < WORD →
          (c1.decision_yes = c.decision_yes + 1 ∧ c1.decision_no = c.decision_no) ∨
          (c1.decision_yes = c.decision_yes ∧ c1.decision_no = c.decision_no + 1))) := by
  constructor
  · intro h0
    have hres : ∀ dec : δ → M → Except String (Bool × δ),
        c.data_store dec d data_msg
          = .ok (false, { c with decision_no := (c.decision_no + 1) % WORD }, d) := by
      intro dec
      unfold base_cache.data_store
      rw [if_neg (by omega)]
      rfl
    exact ⟨hres decisor, fun decisor2 => by rw [hres decisor2, hres decisor]⟩
  · intro rv c1 d1 h
    have heff := data_store_effect decisor c c1 d d1 data_msg rv h
    refine ⟨heff, ?_, ?_, ?_⟩
    · rcases heff with ⟨_, hc⟩ | ⟨_, hc⟩ <;> rw [hc]
    · rcases heff with ⟨_, hc⟩ | ⟨_, hc⟩ <;> rw [hc]
    · intro hy hn
      rcases heff with ⟨_, hc⟩ | ⟨_, hc⟩
      · left
        rw [hc]
        exact ⟨Nat.mod_eq_of_lt hy, rfl⟩
      · right
        rw [hc]
        exact ⟨rfl, Nat.mod_eq_of_lt hn⟩

/-- C22, witness: a store of capacity 0 under a `Costprobtail` policy in a `SEVERE_DEBUG`
build; the store is not even initialized, so a consulted policy would signal an error. The
unit is refused, `decision_no` goes from 0 to 1 and the policy, with its last-accepted-cost
slot, comes back as it was, for the draw `1/4` as for any other. -/
theorem data_store_counts_one_decision_witness :
    ({ base_cache.fresh 0 with is_initialized := false } : base_cache).cache_slots = 0 ∧
    ({ base_cache.fresh 0 with is_initialized := false } : base_cache).data_store
        (Costprobtail.as_decisor debug_build sample_weight
          { tobase_cache := { base_cache.fresh 0 with is_initialized := false },
            lru_list := [] } (1 / 4))
        (sample_policy ℚ) (light_unit ℚ)
      = .ok (false,
          { ({ base_cache.fresh 0 with is_initialized := false } : base_cache) with
            decision_no := (0 + 1) % WORD },
          sample_policy ℚ) ∧
    ∀ decisor2 : Costprobtail ℚ → ccn_data ℚ → Except String (Bool × Costprobtail ℚ),
      ({ base_cache.fresh 0 with is_initialized := false } : base_cache).data_store
          decisor2 (sample_policy ℚ) (light_unit ℚ)
        = ({ base_cache.fresh 0 with is_initialized := false } : base_cache).data_store
          (Costprobtail.as_decisor debug_build sample_weight
            { tobase_cache := { base_cache.fresh 0 with is_initialized := false },
              lru_list := [] } (1 / 4))
          (sample_policy ℚ) (light_unit ℚ) :=
  ⟨rfl,
    (data_store_counts_one_decision
      (Costprobtail.as_decisor debug_build sample_weight
        { tobase_cache := { base_cache.fresh 0 with is_initialized := false },
          lru_list := [] } (1 / 4))
      { base_cache.fresh 0 with is_initialized := false } (sample_policy ℚ)
      (light_unit ℚ)).1 rfl⟩

end CcnSim
